import Mathlib

/-!
Verification of the openwebui-pipelines manifold adapters
(`anthropic_manifold_pipeline.py`, `fireworks_manifold_pipeline.py`,
`openrouter_manifold_pipeline.py`) against their natural-language
specification.

The Python code is shallowly embedded: JSON values (the result of
`json.loads` / `response.json()` and the dict-shaped host request `body`)
become the inductive `Json`; Python dict operations become operations on
association lists with unique-key (first-match) semantics; exceptions become
an explicit `Except` error channel whose error type `PyExc` distinguishes
the exception classes the code catches (`KeyError`, `json.JSONDecodeError`)
from those it does not.  Python numbers (ints and floats) are modelled as
exact rationals; every arithmetic operation the code performs
(`len(data) * 3 / 4`, sums of such terms, comparisons against integer
constants) is exact in IEEE double for the magnitudes involved, so `Rat`
agrees with the float semantics on the modelled operations.
-/

/-- A JSON value, as produced by `json.loads` and consumed by the adapters.
Python ints and floats are both `num`. -/
inductive Json where
  | str (s : String)
  | num (q : Rat)
  | bool (b : Bool)
  | null
  | arr (elems : List Json)
  | obj (fields : List (String × Json))

/-- Python exception classes distinguished by the adapters' `except` clauses.
`keyError` carries the missing key; `valueError` the message;
`jsonError` is `json.JSONDecodeError`; `typeError` stands for the
uncaught dynamic-type failures (TypeError/AttributeError/IndexError),
carrying a description; `exception` is a plain `Exception(msg)` raised by
the adapters themselves. -/
inductive PyExc where
  | keyError (key : String)
  | valueError (msg : String)
  | jsonError
  | typeError (msg : String)
  | exception (msg : String)

/-- `str(e)` for the exceptions the adapters interpolate into
`f"Error: \x7be\x7d"`.  For `KeyError`, Python prints the repr of the key. -/
def pyExcStr : PyExc → String
  | .keyError k => "'" ++ k ++ "'"
  | .valueError m => m
  | .jsonError => "JSONDecodeError"
  | .typeError m => m
  | .exception m => m

/-- A Python dict with string keys: association list, keys unique, first
match wins on lookup. -/
abbrev Dict := List (String × Json)

/-- Dict lookup (`d[k]` / `k in d` support). -/
def dlookup : Dict → String → Option Json
  | [], _ => none
  | (k', v) :: rest, k => if k = k' then some v else dlookup rest k

/-- `d.get(k, default)`. -/
def dgetD (d : Dict) (k : String) (default : Json) : Json :=
  (dlookup d k).getD default

/-- `d[k] = v`: replace in place if the key is present, else append
(Python dicts preserve insertion order). -/
def dset : Dict → String → Json → Dict
  | [], k, v => [(k, v)]
  | (k', v') :: rest, k, v =>
    if k = k' then (k', v) :: rest else (k', v') :: dset rest k v

/-- `del d[k]` on a present key, and also `d.pop(k, None)`: drop the entry. -/
def ddel : Dict → String → Dict
  | [], _ => []
  | (k', v) :: rest, k => if k' = k then ddel rest k else (k', v) :: ddel rest k

/-- `data[k]` on an arbitrary Json value: `KeyError` on a dict missing the
key, `TypeError` on non-dicts (string/int indexing with a string key). -/
def pyGet (j : Json) (k : String) : Except PyExc Json :=
  match j with
  | .obj fs =>
    match dlookup fs k with
    | some v => .ok v
    | none => .error (.keyError k)
  | _ => .error (.typeError ("value is not subscriptable with key " ++ k))

/-- `data.get(k)`: `None` (here `Option.none`) when absent; AttributeError
(uncaught) when the receiver is not a dict. -/
def pyGetOpt (j : Json) (k : String) : Except PyExc (Option Json) :=
  match j with
  | .obj fs => .ok (dlookup fs k)
  | _ => .error (.typeError ("value has no attribute get (" ++ k ++ ")"))

/-- `data.get(k, default)`. -/
def pyGetOptD (j : Json) (k : String) (default : Json) : Except PyExc Json :=
  match j with
  | .obj fs => .ok ((dlookup fs k).getD default)
  | _ => .error (.typeError ("value has no attribute get (" ++ k ++ ")"))

/-- `j == s` for a string literal `s` (Python equality of an arbitrary value
against a string: `False` unless `j` is that string). -/
def Json.isStr (j : Json) (s : String) : Bool :=
  match j with
  | .str t => t = s
  | _ => false

/-- `x == s` where `x` is a value-or-`None` (e.g. the result of `.get`). -/
def optIsStr (o : Option Json) (s : String) : Bool :=
  match o with
  | some j => j.isStr s
  | none => false

/-- Does the character list `pat` start the character list `s`? -/
def charsStart : List Char → List Char → Bool
  | [], _ => true
  | _ :: _, [] => false
  | p :: ps, c :: cs => p = c && charsStart ps cs

/-- `s.startswith(pre)`. -/
def pyStartsWith (s pre : String) : Bool :=
  charsStart pre.toList s.toList

/-- `k in j`: key membership for dicts, substring test for strings (the only
needle the code uses is a plain key string), element membership for lists,
`TypeError` for non-iterables. -/
def pyContains (j : Json) (k : String) : Except PyExc Bool :=
  match j with
  | .obj fs => .ok ((dlookup fs k).isSome)
  | .str s =>
    .ok ((List.range (s.length + 1)).any
      (fun i => charsStart k.toList (s.toList.drop i)))
  | .arr l => .ok (l.any (fun e => match e with | .str t => t = k | _ => false))
  | _ => .error (.typeError "argument is not iterable")

/-- Python truthiness of a JSON value. -/
def pyTruthy : Json → Bool
  | .str s => s ≠ ""
  | .num q => q ≠ 0
  | .bool b => b
  | .null => false
  | .arr l => !l.isEmpty
  | .obj fs => !fs.isEmpty

/-- `str(x)`.  Only the string case is exercised by the embedded code paths
the claims touch; the remaining cases are Python's printed forms
approximated (float formatting and container reprs are not modelled
precisely). -/
def pyStr : Json → String
  | .str s => s
  | .num q => toString q
  | .bool true => "True"
  | .bool false => "False"
  | .null => "None"
  | .arr _ => "[...]"
  | .obj _ => "\x7b...\x7d"

/-- `len(x)` for lists, strings and dicts; `TypeError` otherwise. -/
def pyLen : Json → Except PyExc Nat
  | .arr l => .ok l.length
  | .str s => .ok s.length
  | .obj fs => .ok fs.length
  | _ => .error (.typeError "object has no len")

/-- `x[0]`: first element of a list, first character of a string (as a
one-character string); `KeyError` for dicts (0 is not a key),
`TypeError` otherwise. -/
def pyIndex0 : Json → Except PyExc Json
  | .arr (x :: _) => .ok x
  | .arr [] => .error (.typeError "list index out of range")
  | .str s =>
    match s.toList with
    | c :: _ => .ok (.str (String.mk [c]))
    | [] => .error (.typeError "string index out of range")
  | .obj _ => .error (.keyError "0")
  | _ => .error (.typeError "value is not subscriptable")

/-- Break a character list at the first occurrence of `c`:
`some (before, after)` or `none` when `c` does not occur. -/
def breakAtChar (c : Char) : List Char → Option (List Char × List Char)
  | [] => none
  | x :: xs =>
    if x = c then some ([], xs)
    else (breakAtChar c xs).map (fun p => (x :: p.1, p.2))

/-- `s.split(sep, 1)` followed by a two-variable unpacking, for a
one-character separator: the part before the first occurrence and the rest;
`none` models the `ValueError` Python raises when unpacking a one-element
split. -/
def pySplit1 (s : String) (c : Char) : Option (String × String) :=
  (breakAtChar c s.toList).map (fun p => (String.mk p.1, String.mk p.2))

/-- `s.split(sep)[1]` for a one-character separator: the segment between the
first and second occurrences (or the tail after the first, when it is the
only one); `none` models the `IndexError` when the separator is absent. -/
def pySplitIdx1 (s : String) (c : Char) : Option String :=
  (breakAtChar c s.toList).map (fun p =>
    match breakAtChar c p.2 with
    | some q => String.mk q.1
    | none => String.mk p.2)

/-- `s.split(sep)[0]` for a one-character separator: the part before the
first occurrence, or the whole string (never fails). -/
def pySplitIdx0 (s : String) (c : Char) : String :=
  match breakAtChar c s.toList with
  | some p => String.mk p.1
  | none => s

/-- `s.split("/")[-1]`: the characters after the last `/` (the whole string
when there is no `/`). -/
def afterLastSlash (s : String) : String :=
  String.mk (s.toList.foldl (fun acc c => if c = '/' then [] else acc ++ [c]) [])

/-- `a <= b` between a JSON value and a number: ok for numbers, `TypeError`
otherwise (Python refuses to order a str against an int). -/
def pyLE (a : Json) (b : Rat) : Except PyExc Bool :=
  match a with
  | .num q => .ok (q ≤ b)
  | _ => .error (.typeError "comparison not supported between these types")

/-! ## Anthropic adapter (`anthropic_manifold_pipeline.py`) -/

/-- `Pipeline.process_image` (lines 73-89): a data-URI image is re-encoded
as an inline base64 source, any other URL passes through as a URL source.
`none` from the comma split models the `ValueError` of unpacking a
one-element split. -/
def process_image (image_data : Json) : Except PyExc Json := do
  let url ← pyGet image_data "url"
  match url with
  | .str u =>
    if pyStartsWith u "data:image" then
      match pySplit1 u ',' with
      | some (mime_type, base64_data) =>
        match pySplitIdx1 mime_type ':' with
        | some seg =>
          let media_type := pySplitIdx0 seg ';'
          .ok (.obj [("type", .str "image"),
            ("source", .obj [("type", .str "base64"),
              ("media_type", .str media_type),
              ("data", .str base64_data)])])
        | none => .error (.typeError "list index out of range")
      | none =>
        .error (.valueError "not enough values to unpack (expected 2, got 1)")
    else
      .ok (.obj [("type", .str "image"),
        ("source", .obj [("type", .str "url"), ("url", .str u)])])
  | _ => .error (.typeError "value has no attribute startswith")

/-- The image-count limit message (line 135). -/
def maxImagesMsg : String := "Maximum of 5 images per API call exceeded"

/-- The cumulative-size limit message (line 147). -/
def sizeLimitMsg : String := "Total size of images exceeds 100 MB limit"

/-- The 100 MiB cumulative image-size limit (line 146). -/
def imageSizeLimit : Rat := 100 * 1024 * 1024

/-- The inner loop over one message's content list (lines 130-149):
builds the processed content parts while threading the image count and the
cumulative estimated decoded size. -/
def process_items (cnt : Nat) (size : Rat) :
    List Json → Except PyExc (List Json × Nat × Rat)
  | [] => .ok ([], cnt, size)
  | item :: rest => do
    let ty ← pyGet item "type"
    if ty.isStr "text" then
      let t ← pyGet item "text"
      let (out, c, s) ← process_items cnt size rest
      .ok ((Json.obj [("type", .str "text"), ("text", t)]) :: out, c, s)
    else if ty.isStr "image_url" then
      if cnt ≥ 5 then .error (.valueError maxImagesMsg)
      else do
        let idata ← pyGet item "image_url"
        let processed ← process_image idata
        let image_size : Rat ←
          match processed with
          | .obj fs =>
            match dlookup fs "source" with
            | some (.obj sfs) =>
              if optIsStr (dlookup sfs "type") "base64" then
                match dlookup sfs "data" with
                | some (.str d) => pure ((d.length * 3 : Rat) / 4)
                | _ => pure 0
              else pure 0
            | _ => pure 0
          | _ => pure 0
        let size' := size + image_size
        if size' > imageSizeLimit then .error (.valueError sizeLimitMsg)
        else do
          let (out, c, s) ← process_items (cnt + 1) size' rest
          .ok (processed :: out, c, s)
    else do
      -- neither "text" nor "image_url": the source has no else branch,
      -- the item contributes nothing
      process_items cnt size rest

/-- The outer loop over messages (lines 127-153): list-typed content goes
through `process_items`, any other content becomes a single text part via
`message.get("content", "")`. -/
def process_messages (cnt : Nat) (size : Rat) :
    List Json → Except PyExc (List Json)
  | [] => .ok []
  | message :: rest => do
    let content ← pyGetOpt message "content"
    let (processed_content, c, s) ←
      match content with
      | some (.arr items) => process_items cnt size items
      | _ => do
        let c0 ← pyGetOptD message "content" (.str "")
        pure ([Json.obj [("type", .str "text"), ("text", c0)]], cnt, size)
    let role ← pyGet message "role"
    let rest' ← process_messages c s rest
    .ok ((Json.obj [("role", role), ("content", .arr processed_content)]) :: rest')

/-- Modelled from the spec: `pop_system_message` (imported from the host's
`utils.pipelines.main` / `open_webui.utils.misc`, not part of src/).
The spec (§4.1) says the translator "extracts exactly one leading system
message from the message sequence (if present as the first system-role
message)"; so: when the first message has role `"system"`, return its
content and the remaining messages, otherwise return no system message and
the sequence unchanged. -/
def pop_system_message (messages : List Json) : Option Json × List Json :=
  match messages with
  | .obj fs :: rest =>
    if optIsStr (dlookup fs "role") "system" then (dlookup fs "content", rest)
    else (none, messages)
  | _ => (none, messages)

/-- Lines 113-119: rewrite the first user message whose string content
equals `original_message`, assigning `user_message` (the identical value —
`original_message` is saved from `user_message` at line 96 and neither
changes in between) back to it, then stop. -/
def update_user_message (um : String) : List Json → Except PyExc (List Json)
  | [] => .ok []
  | m :: rest => do
    let role ← pyGetOpt m "role"
    let content ← pyGetOpt m "content"
    if optIsStr role "user" && optIsStr content um then
      match m with
      | .obj fs => .ok (Json.obj (dset fs "content" (.str um)) :: rest)
      | _ => .error (.typeError "message does not support item assignment")
    else do
      let rest' ← update_user_message um rest
      .ok (m :: rest')

/-- Lines 98-100: `body.pop(key, None)` for the three host bookkeeping
keys. -/
def strip_host_keys (body : Dict) : Dict :=
  ddel (ddel (ddel body "user") "chat_id") "title"

/-- The `**({"system": str(system_message)} if system_message else {})`
entry of the payload (line 164). -/
def system_segment (sys : Option Json) : Dict :=
  match sys with
  | some s => if pyTruthy s then [("system", .str (pyStr s))] else []
  | none => []

/-- The seven leading entries of the Anthropic payload dict (lines
157-163). -/
def anthropic_payload_head (mid : String) (pm : List Json) (body : Dict) : Dict :=
  [("model", .str mid),
   ("messages", .arr pm),
   ("max_tokens", dgetD body "max_tokens" (.num 4096)),
   ("temperature", dgetD body "temperature" (.num (8/10))),
   ("top_k", dgetD body "top_k" (.num 40)),
   ("top_p", dgetD body "top_p" (.num (9/10))),
   ("stop_sequences", dgetD body "stop" (.arr []))]

/-- The Anthropic payload dict literal (lines 156-166), in insertion order.
`pm` is the processed message list, `sys` the popped system message. -/
def anthropic_base_payload (mid : String) (pm : List Json) (sys : Option Json)
    (body : Dict) : Dict :=
  anthropic_payload_head mid pm body
  ++ system_segment sys
  ++ [("stream", dgetD body "stream" (.bool false))]

/-- Lines 156-180: the Anthropic payload, including the thinking-mode
adjustments (lines 168-180). -/
def anthropic_build_payload (budget : Rat) (mid : String) (pm : List Json)
    (sys : Option Json) (body : Dict) (thinking_enabled : Bool) :
    Except PyExc Dict := do
  let payload : Dict := anthropic_base_payload mid pm sys body
  if thinking_enabled then do
    let payload := dset payload "thinking"
      (.obj [("type", .str "enabled"), ("budget_tokens", .num budget)])
    let payload := dset payload "temperature" (.num 1)
    let payload := ddel payload "top_k"
    let payload := ddel payload "top_p"
    -- if payload["max_tokens"] <= thinking_budget: add a buffer
    let mt ←
      match dlookup payload "max_tokens" with
      | some v => Except.ok v
      | none => Except.error (.keyError "max_tokens")
    let le ← pyLE mt budget
    if le then .ok (dset payload "max_tokens" (.num (budget + 1000)))
    else .ok payload
  else .ok payload

/-- `Pipeline.pipe` up to the point where the HTTP call would be issued
(lines 94-185, minus the call): produces the vendor payload and the raw
`body.get("stream", False)` value, or the exception the `except` clause at
line 186 converts into an `"Error: ..."` string.  The body pops at lines
98-100 are modelled separately by `strip_host_keys` (their effect on the
caller's dict); here the already-stripped body is read. -/
def anthropic_pipe_core (budget : Rat) (user_message model_id : String)
    (messages : List Json) (body : Dict) : Except PyExc (Dict × Json) := do
  let body := strip_host_keys body
  let thinking_enabled := model_id = "claude-3-7-sonnet-think"
  let mid := if thinking_enabled then "claude-3-7-sonnet-20250219" else model_id
  let messages ← update_user_message user_message messages
  let (system_message, messages) := pop_system_message messages
  let pm ← process_messages 0 0 messages
  let payload ← anthropic_build_payload budget mid pm system_message body
    thinking_enabled
  .ok (payload, dgetD body "stream" (.bool false))

/-- One raw SSE event's data payload: either undecodable
(`json.JSONDecodeError` from `json.loads`) or a decoded JSON value. -/
inductive RawEvent where
  | malformed
  | event (data : Json)

/-- The outcome of consuming a streaming generator to exhaustion: the
fragments yielded, plus — when an uncaught exception escaped the generator
body — the exception's message.  (`raised` means an exception propagates to
the host that is iterating the generator.) -/
inductive StreamResult where
  | done (frags : List Json)
  | raised (frags : List Json) (msg : String)

/-- Prepend already-yielded fragments to the rest of a stream run. -/
def StreamResult.prepend (out : List Json) : StreamResult → StreamResult
  | .done l => .done (out ++ l)
  | .raised l m => .raised (out ++ l) m

/-- The body of the Anthropic `for event in client.events()` loop for one
decoded event (lines 200-231): returns the new `current_block_type`, the
fragments yielded, and whether `break` was executed (message_stop).  Errors
carry the fragments yielded before the exception was raised; every
`KeyError` in this body occurs before any yield or state change. -/
def anthropicHandle (cur : Option Json) (data : Json) :
    Except (PyExc × List Json) (Option Json × List Json × Bool) := do
  let ty ← (pyGet data "type").mapError (·, [])
  if ty.isStr "content_block_start" then do
    let cb ← (pyGet data "content_block").mapError (·, [])
    let blockType ← (pyGetOpt cb "type").mapError (·, [])
    -- current_block_type = block_type happens before the yields
    if optIsStr blockType "thinking" then
      -- yield "<think>" first, then the inline fragment if present
      match pyContains cb "thinking" with
      | .error e => .error (e, [.str "<think>"])
      | .ok true =>
        match pyGet cb "thinking" with
        | .error e => .error (e, [.str "<think>"])
        | .ok v => .ok (blockType, [.str "<think>", v], false)
      | .ok false => .ok (blockType, [.str "<think>"], false)
    else if optIsStr blockType "text" then
      match pyContains cb "text" with
      | .error e => .error (e, [])
      | .ok true =>
        match pyGet cb "text" with
        | .error e => .error (e, [])
        | .ok v => .ok (blockType, [v], false)
      | .ok false => .ok (blockType, [], false)
    else .ok (blockType, [], false)
  else if ty.isStr "content_block_delta" then do
    let d ← (pyGet data "delta").mapError (·, [])
    let deltaType ← (pyGetOpt d "type").mapError (·, [])
    if optIsStr deltaType "thinking_delta" then
      match pyContains d "thinking" with
      | .error e => .error (e, [])
      | .ok true =>
        match pyGet d "thinking" with
        | .error e => .error (e, [])
        | .ok v => .ok (cur, [v], false)
      | .ok false => .ok (cur, [], false)
    else if optIsStr deltaType "text_delta" then
      match pyContains d "text" with
      | .error e => .error (e, [])
      | .ok true =>
        match pyGet d "text" with
        | .error e => .error (e, [])
        | .ok v => .ok (cur, [v], false)
      | .ok false => .ok (cur, [], false)
    else .ok (cur, [], false)
  else if ty.isStr "content_block_stop" then
    if optIsStr cur "thinking" then .ok (none, [.str "</think>"], false)
    else .ok (none, [], false)
  else if ty.isStr "message_stop" then
    .ok (cur, [], true)
  else .ok (cur, [], false)

/-- The Anthropic event loop (lines 194-237): `json.JSONDecodeError` and
`KeyError` are caught and the event skipped; any other exception escapes
the generator. -/
def anthropicLoop (cur : Option Json) : List RawEvent → StreamResult
  | [] => .done []
  | .malformed :: rest => anthropicLoop cur rest
  | .event data :: rest =>
    match anthropicHandle cur data with
    | .ok (_, out, true) => .done out
    | .ok (cur', out, false) => (anthropicLoop cur' rest).prepend out
    | .error (.keyError _, out) => (anthropicLoop cur rest).prepend out
    | .error (e, out) => .raised out (pyExcStr e)

/-- `Pipeline.stream_response` (lines 189-239), with the HTTP response
injected as the status code, the response text and the decoded SSE event
payloads: on a 200 the event loop runs; otherwise the generator raises
`Exception(f"Error: \x7bstatus\x7d - \x7btext\x7d")`.  Because
`stream_response` is a Python generator, none of this executes inside
`pipe`'s try/except — it runs when the host iterates the returned
generator. -/
def anthropic_stream_response (status : Nat) (text : String)
    (events : List RawEvent) : StreamResult :=
  if status = 200 then anthropicLoop none events
  else .raised [] ("Error: " ++ toString status ++ " - " ++ text)

/-- The `output` accumulation loop of `Pipeline.get_completion`
(lines 248-252): walk the content blocks, wrapping thinking blocks in
think markers and appending text blocks. -/
def anthropic_extract_go (acc : String) : List Json → Except PyExc String
  | [] => .ok acc
  | block :: rest => do
    let ty ← pyGetOpt block "type"
    if optIsStr ty "thinking" then do
      let v ← pyGetOptD block "thinking" (.str "")
      anthropic_extract_go (acc ++ "<think>" ++ pyStr v ++ "</think>") rest
    else if optIsStr ty "text" then do
      let v ← pyGetOptD block "text" (.str "")
      match v with
      | .str s => anthropic_extract_go (acc ++ s) rest
      | _ => .error (.typeError "can only concatenate str to str")
    else anthropic_extract_go acc rest

/-- Iterate a Python value: list elements, string characters, dict keys;
`TypeError` otherwise. -/
def pyIter : Json → Except PyExc (List Json)
  | .arr l => .ok l
  | .str s => .ok (s.toList.map (fun c => .str (String.mk [c])))
  | .obj fs => .ok (fs.map (fun p => .str p.1))
  | _ => .error (.typeError "object is not iterable")

/-- The 200 branch of `Pipeline.get_completion` (lines 244-254): extract the
assembled completion text from the decoded response body. -/
def anthropic_extract (res : Json) : Except PyExc String := do
  let content ← pyGetOptD res "content" (.arr [])
  let blocks ← pyIter content
  anthropic_extract_go "" blocks

/-- `Pipeline.get_completion` (lines 241-256) with the HTTP response
injected: a non-200 status raises `Exception(f"Error: ...")` (caught by
`pipe`'s except, since this is an ordinary function call); a body that is
not decodable JSON raises at `response.json()`. -/
def anthropic_get_completion (status : Nat) (text : String)
    (resBody : Option Json) : Except PyExc String :=
  if status = 200 then
    match resBody with
    | some res => anthropic_extract res
    | none => .error .jsonError
  else .error (.exception ("Error: " ++ toString status ++ " - " ++ text))

/-- What the host receives from one adapter call: a plain string (the
completion, or the `"Error: ..."` failure string), a raw JSON value (when a
vendor's extracted content field is not a string), a fully-consumed
fragment stream, or an exception raised while iterating the returned
generator (with the fragments yielded before it). -/
inductive HostOutcome where
  | text (s : String)
  | value (j : Json)
  | streamed (frags : List Json)
  | raisedExc (frags : List Json) (msg : String)

/-- The complete host-visible behaviour of `Pipeline.pipe` for the Anthropic
adapter, with the vendor HTTP response injected (`status`, `text`, the
decoded body for the non-streaming path, the SSE events for the streaming
path).  Exceptions during payload construction and inside `get_completion`
are caught at line 186 and become `f"Error: \x7be\x7d"`; the streaming
branch returns a generator whose body runs outside the try/except, so its
exceptions reach the host raw. -/
def anthropic_adapter_call (budget : Rat) (user_message model_id : String)
    (messages : List Json) (body : Dict) (status : Nat) (text : String)
    (resBody : Option Json) (events : List RawEvent) : HostOutcome :=
  match anthropic_pipe_core budget user_message model_id messages body with
  | .error e => .text ("Error: " ++ pyExcStr e)
  | .ok (_, streamFlag) =>
    if pyTruthy streamFlag then
      match anthropic_stream_response status text events with
      | .done frags => .streamed frags
      | .raised frags msg => .raisedExc frags msg
    else
      match anthropic_get_completion status text resBody with
      | .ok s => .text s
      | .error e => .text ("Error: " ++ pyExcStr e)

/-! ## Fireworks adapter (`fireworks_manifold_pipeline.py`) -/

/-- The Fireworks model alias table (lines 32-36). -/
def fireworks_model_mapping : List (String × String) :=
  [("llama-v3p1-405b-instruct", "accounts/fireworks/models/llama-v3p1-405b-instruct"),
   ("deepseek-v3", "accounts/fireworks/models/deepseek-v3"),
   ("deepseek-r1", "accounts/fireworks/models/deepseek-r1")]

/-- String-keyed alias lookup with a fall-through default
(`self.model_mapping.get(model_id, model_id)`). -/
def aliasLookup : List (String × String) → String → Option String
  | [], _ => none
  | (k, v) :: rest, s => if s = k then some v else aliasLookup rest s

/-- `Pipeline.pipe` of the Fireworks adapter up to the HTTP call
(lines 79-113): pops the host keys (modelled by `strip_host_keys`), pops
the system message, resolves the model alias, and builds the payload.
`payload["messages"]` aliases the `messages` list that the subsequent
`messages.insert(0, ...)` mutates, so the payload's message list carries
the re-inserted system message. -/
def fireworks_pipe_core (model_id : String) (messages : List Json)
    (body : Dict) : Except PyExc (Dict × Json) := do
  let body := strip_host_keys body
  let (system_message, messages) := pop_system_message messages
  let model_id := model_id.replace "fireworks_pipe." ""
  let full_model_id := (aliasLookup fireworks_model_mapping model_id).getD model_id
  let messages :=
    match system_message with
    | some s =>
      if pyTruthy s then
        Json.obj [("role", .str "system"), ("content", s)] :: messages
      else messages
    | none => messages
  let payload : Dict :=
    [("model", .str full_model_id),
     ("messages", .arr messages),
     ("max_tokens", dgetD body "max_tokens" (.num 16384)),
     ("temperature", dgetD body "temperature" (.num (6/10))),
     ("top_k", dgetD body "top_k" (.num 40)),
     ("top_p", dgetD body "top_p" (.num 1)),
     ("presence_penalty", dgetD body "presence_penalty" (.num 0)),
     ("frequency_penalty", dgetD body "frequency_penalty" (.num 0)),
     ("stream", dgetD body "stream" (.bool false))]
  .ok (payload, dgetD body "stream" (.bool false))

/-- One raw line of the Fireworks/OpenRouter newline-delimited stream:
empty (skipped by `if line:`), a non-`data: ` line (skipped by
`startswith`), or a `data: ` line whose JSON payload decoded or did not. -/
inductive RawLine where
  | blank
  | other
  | dataLine (e : RawEvent)

/-- The body of the Fireworks stream loop for one decoded `data: ` payload
(lines 130-134): at most one content fragment per line.  Every `KeyError`
(e.g. a choice without `"delta"`) occurs before any yield. -/
def fireworksHandle (data : Json) : Except PyExc (List Json) := do
  let hasChoices ← pyContains data "choices"
  if hasChoices then do
    let choices ← pyGet data "choices"
    let n ← pyLen choices
    if n > 0 then do
      let choice ← pyIndex0 choices
      let delta ← pyGet choice "delta"
      let content ← pyGetOpt delta "content"
      match content with
      | some c => if pyTruthy c then .ok [c] else .ok []
      | none => .ok []
    else .ok []
  else .ok []

/-- The Fireworks line loop (lines 124-139): blank and non-`data: ` lines
yield nothing; `json.JSONDecodeError` and `KeyError` are caught and the
line skipped; any other exception escapes the generator. -/
def fireworksLoop : List RawLine → StreamResult
  | [] => .done []
  | .blank :: rest => fireworksLoop rest
  | .other :: rest => fireworksLoop rest
  | .dataLine .malformed :: rest => fireworksLoop rest
  | .dataLine (.event data) :: rest =>
    match fireworksHandle data with
    | .ok out => (fireworksLoop rest).prepend out
    | .error (.keyError _) => fireworksLoop rest
    | .error e => .raised [] (pyExcStr e)

/-- `Pipeline.stream_response` of the Fireworks adapter (lines 118-139):
a generator — a non-200 status raises
`Exception(f"HTTP Error \x7bstatus\x7d: \x7btext\x7d")` when the host
starts iterating, outside `pipe`'s try/except. -/
def fireworks_stream_response (status : Nat) (text : String)
    (lines : List RawLine) : StreamResult :=
  if status = 200 then fireworksLoop lines
  else .raised [] ("HTTP Error " ++ toString status ++ ": " ++ text)

/-- `Pipeline.get_completion` of the Fireworks adapter (lines 141-153):
non-200 raises (caught by `pipe`); otherwise
`res["choices"][0]["message"]["content"]` when `"choices" in res and
res["choices"]` (truthiness), else `""`. -/
def fireworks_get_completion (status : Nat) (text : String)
    (resBody : Option Json) : Except PyExc Json := do
  if status = 200 then
    match resBody with
    | some res => do
      let hasChoices ← pyContains res "choices"
      let truthy ←
        if hasChoices then do
          let c ← pyGet res "choices"
          pure (pyTruthy c)
        else pure false
      if truthy then do
        let choices ← pyGet res "choices"
        let c0 ← pyIndex0 choices
        let msg ← pyGet c0 "message"
        pyGet msg "content"
      else .ok (.str "")
    | none => .error .jsonError
  else .error (.exception ("HTTP Error " ++ toString status ++ ": " ++ text))

/-- The complete host-visible behaviour of the Fireworks `Pipeline.pipe`
with the vendor HTTP response injected; same generator caveat as for
the Anthropic adapter. -/
def fireworks_adapter_call (model_id : String) (messages : List Json)
    (body : Dict) (status : Nat) (text : String) (resBody : Option Json)
    (lines : List RawLine) : HostOutcome :=
  match fireworks_pipe_core model_id messages body with
  | .error e => .text ("Error: " ++ pyExcStr e)
  | .ok (_, streamFlag) =>
    if pyTruthy streamFlag then
      match fireworks_stream_response status text lines with
      | .done frags => .streamed frags
      | .raised frags msg => .raisedExc frags msg
    else
      match fireworks_get_completion status text resBody with
      | .ok (.str s) => .text s
      | .ok v => .value v
      | .error e => .text ("Error: " ++ pyExcStr e)

/-! ## OpenRouter adapter (`openrouter_manifold_pipeline.py`) -/

/-- The cross-request state of `Pipe`: the model-catalog cache and the
timestamp of the last successful fetch (lines 38-39). -/
structure CatalogState where
  models_cache : Option (List Json)
  last_fetch_time : Rat

/-- The result of the one `requests.get` a refresh performs: a delivered
response (status plus decoded-or-not body) or a raised transport error. -/
inductive HttpResult where
  | resp (status : Nat) (text : String) (body : Option Json)
  | netError

/-- The cache window in seconds (line 40). -/
def cache_duration : Rat := 300

/-- The fixed fallback catalog (lines 100-104). -/
def fallback_models : List Json :=
  [.obj [("id", .str "openai/gpt-3.5-turbo"), ("name", .str "gpt-3.5-turbo")],
   .obj [("id", .str "openai/gpt-4"), ("name", .str "gpt-4")],
   .obj [("id", .str "anthropic/claude-3.5-sonnet"), ("name", .str "claude-3.5-sonnet")]]

/-- Transform one remote model record into the Open WebUI shape
(lines 76-85).  The display name comes from
`model.get("name", "").split("/")[-1]`. -/
def transform_model (model : Json) : Except PyExc Json := do
  let idv ← pyGetOptD model "id" (.str "")
  let namev ← pyGetOptD model "name" (.str "")
  let name ←
    match namev with
    | .str s => Except.ok (afterLastSlash s)
    | _ => Except.error (.typeError "value has no attribute split")
  let descv ← pyGetOptD model "description" (.str "")
  let ctxv ← pyGetOpt model "context_length"
  let pricing ← pyGetOptD model "pricing" (.obj [])
  let prompt ← pyGetOpt pricing "prompt"
  let completion ← pyGetOpt pricing "completion"
  .ok (.obj [("id", idv), ("name", .str name), ("description", descv),
    ("context_length", ctxv.getD .null),
    ("pricing", .obj [("prompt", prompt.getD .null),
      ("completion", completion.getD .null)])])

/-- The transformation loop over `models_data.get("data", [])`
(lines 74-86). -/
def transform_models_go : List Json → Except PyExc (List Json)
  | [] => .ok []
  | m :: rest => do
    let m' ← transform_model m
    let rest' ← transform_models_go rest
    .ok (m' :: rest')

/-- Transform a decoded catalog response body into the processed model list
(lines 71-86): `models_data.get("data", [])` must be iterable as a list of
records. -/
def transform_models (models_data : Json) : Except PyExc (List Json) := do
  let data ← pyGetOptD models_data "data" (.arr [])
  match data with
  | .arr records => transform_models_go records
  | _ => .error (.typeError "object is not iterable")

/-- `Pipe.fetch_openrouter_models` (lines 50-104), with the clock and the
network injected.  Returns the model list handed back to the caller, the
new catalog state, and whether a network request was performed.  Any
exception inside the `try` (transport error, non-200 status, undecodable
body, transformation failure) falls into the `except` branch: serve the
previous cache if any, else the fixed fallback list; the state is only
written on a successful fetch (lines 89-90). -/
def fetch_openrouter_models (st : CatalogState) (now : Rat)
    (net : HttpResult) : List Json × CatalogState × Bool :=
  if h : st.models_cache.isSome ∧ now - st.last_fetch_time < cache_duration then
    (st.models_cache.get h.1, st, false)
  else
    let failed : List Json × CatalogState × Bool :=
      match st.models_cache with
      | some c => (c, st, true)
      | none => (fallback_models, st, true)
    match net with
    | .netError => failed
    | .resp status _ body =>
      if status = 200 then
        match body with
        | some models_data =>
          match transform_models models_data with
          | .ok processed =>
            (processed, ⟨some processed, now⟩, true)
          | .error _ => failed
        | none => failed
      else failed

/-- The payload-construction prefix of `Pipe.pipe` (lines 117-131), which
runs OUTSIDE the try/except that begins at line 135: `body["messages"]`
and `body["model"]` raise to the host when absent. -/
def openrouter_pipe_core (body : Dict) : Except PyExc (Dict × Json) := do
  let messagesv ←
    match dlookup body "messages" with
    | some v => Except.ok v
    | none => Except.error (.keyError "messages")
  let messages ←
    match messagesv with
    | .arr l => Except.ok l
    | _ => Except.error (.typeError "messages is not a list")
  let (system_message, messages) := pop_system_message messages
  let messages :=
    match system_message with
    | some s =>
      if pyTruthy s then
        Json.obj [("role", .str "system"), ("content", .str (pyStr s))] :: messages
      else messages
    | none => messages
  let model ←
    match dlookup body "model" with
    | some v => Except.ok v
    | none => Except.error (.keyError "model")
  let payload : Dict :=
    [("model", model),
     ("messages", .arr messages),
     ("max_tokens", dgetD body "max_tokens" (.num 4096)),
     ("temperature", dgetD body "temperature" (.num (8/10))),
     ("top_p", dgetD body "top_p" (.num (9/10))),
     ("stop", dgetD body "stop" (.arr [])),
     ("stream", dgetD body "stream" (.bool false))]
  .ok (payload, dgetD body "stream" (.bool false))

/-- The body of the OpenRouter stream loop for one decoded `data: ` payload
(lines 160-166): a delta fragment, else a message fragment, else nothing.
All key accesses are guarded by `in` checks, so no `KeyError` can be
raised from a dict-shaped event. -/
def openrouterHandle (data : Json) : Except PyExc (List Json) := do
  let hasChoices ← pyContains data "choices"
  if hasChoices then do
    let choices ← pyGet data "choices"
    let n ← pyLen choices
    if n > 0 then do
      let choice ← pyIndex0 choices
      let hasDelta ← pyContains choice "delta"
      let deltaHasContent ←
        if hasDelta then do
          let d ← pyGet choice "delta"
          pyContains d "content"
        else pure false
      if hasDelta ∧ deltaHasContent then do
        let d ← pyGet choice "delta"
        let c ← pyGet d "content"
        .ok [c]
      else do
        let hasMessage ← pyContains choice "message"
        let msgHasContent ←
          if hasMessage then do
            let m ← pyGet choice "message"
            pyContains m "content"
          else pure false
        if hasMessage ∧ msgHasContent then do
          let m ← pyGet choice "message"
          let c ← pyGet m "content"
          .ok [c]
        else .ok []
    else .ok []
  else .ok []

/-- The OpenRouter line loop (lines 155-174), inside the generator's outer
try: `json.JSONDecodeError` and `KeyError` skip the line; the
`time.sleep(0.01)` pacing between fragments has no effect on the fragment
sequence and is not modelled.  Returns the fragments plus the uncaught
exception, if one was raised, for the outer handler. -/
def openrouterLoop : List RawLine → List Json × Option PyExc
  | [] => ([], none)
  | .blank :: rest => openrouterLoop rest
  | .other :: rest => openrouterLoop rest
  | .dataLine .malformed :: rest => openrouterLoop rest
  | .dataLine (.event data) :: rest =>
    match openrouterHandle data with
    | .ok out =>
      let (frags, exc) := openrouterLoop rest
      (out ++ frags, exc)
    | .error (.keyError _) => openrouterLoop rest
    | .error e => ([], some e)

/-- `Pipe.stream_response` of the OpenRouter adapter (lines 147-180): the
whole body is inside try/excepts that convert ANY exception — including a
non-200 status — into a final yielded `"Error: ..."` fragment, so this
generator never raises to the host. -/
def openrouter_stream_response (netRes : HttpResult) (lines : List RawLine) :
    List Json :=
  match netRes with
  | .netError => [.str "Error: Request failed: connection error"]
  | .resp status text _ =>
    if status = 200 then
      match openrouterLoop lines with
      | (frags, none) => frags
      | (frags, some e) => frags ++ [.str ("Error: " ++ pyExcStr e)]
    else
      [.str ("Error: HTTP Error " ++ toString status ++ ": " ++ text)]

/-- `Pipe.non_stream_response` (lines 182-198): a non-200 status raises a
plain `Exception` which its own `except` clause (RequestException only)
does NOT catch — it propagates into `pipe`'s `except Exception`. -/
def openrouter_non_stream_response (status : Nat) (text : String)
    (resBody : Option Json) : Except PyExc Json := do
  if status = 200 then
    match resBody with
    | some res => do
      let hasChoices ← pyContains res "choices"
      let truthy ←
        if hasChoices then do
          let c ← pyGet res "choices"
          pure (pyTruthy c)
        else pure false
      if truthy then do
        let choices ← pyGet res "choices"
        let c0 ← pyIndex0 choices
        let msg ← pyGet c0 "message"
        pyGet msg "content"
      else .ok (.str "")
    | none => .error .jsonError
  else .error (.exception ("HTTP Error " ++ toString status ++ ": " ++ text))

/-- The complete host-visible behaviour of `Pipe.pipe` for the OpenRouter
adapter.  Payload construction (lines 117-131) runs before the `try`, so
its exceptions raise into the host; the non-streaming branch runs inside
`pipe`'s try and is converted to an `"Error: ..."` string; the streaming
generator converts its own failures to a final `"Error: ..."` fragment. -/
def openrouter_adapter_call (body : Dict) (netRes : HttpResult)
    (lines : List RawLine) : HostOutcome :=
  match openrouter_pipe_core body with
  | .error e => .raisedExc [] (pyExcStr e)
  | .ok (_, streamFlag) =>
    if pyTruthy streamFlag then
      .streamed (openrouter_stream_response netRes lines)
    else
      match netRes with
      | .netError => .text "Error: Request failed: connection error"
      | .resp status text resBody =>
        match openrouter_non_stream_response status text resBody with
        | .ok (.str s) => .text s
        | .ok v => .value v
        | .error e => .text ("Error: " ++ pyExcStr e)

/-! ## Helper lemmas -/

theorem StreamResult.prepend_nil (r : StreamResult) : r.prepend [] = r := by
  cases r <;> rfl

theorem dlookup_append (a b : Dict) (k : String) :
    dlookup (a ++ b) k =
      match dlookup a k with
      | some v => some v
      | none => dlookup b k := by
  induction a with
  | nil => rfl
  | cons p rest ih =>
    obtain ⟨k', v⟩ := p
    show dlookup ((k', v) :: (rest ++ b)) k = _
    by_cases h : k = k'
    · simp [dlookup, h]
    · simp [dlookup, h, ih]

theorem dlookup_dset_self (d : Dict) (k : String) (v : Json) :
    dlookup (dset d k v) k = some v := by
  induction d with
  | nil => simp [dset, dlookup]
  | cons p rest ih =>
    obtain ⟨k', v'⟩ := p
    by_cases h : k = k'
    · simp [dset, dlookup, h]
    · simp [dset, dlookup, h, ih]

theorem dlookup_dset_ne (d : Dict) (k k' : String) (v : Json) (h : k' ≠ k) :
    dlookup (dset d k v) k' = dlookup d k' := by
  induction d with
  | nil => simp [dset, dlookup, h]
  | cons p rest ih =>
    obtain ⟨k'', v''⟩ := p
    by_cases h2 : k = k''
    · subst h2
      simp [dset, dlookup, h]
    · by_cases h3 : k' = k''
      · simp [dset, dlookup, h2, h3]
      · simp [dset, dlookup, h2, h3, ih]

theorem dlookup_ddel_self (d : Dict) (k : String) :
    dlookup (ddel d k) k = none := by
  induction d with
  | nil => rfl
  | cons p rest ih =>
    obtain ⟨k', v⟩ := p
    by_cases h : k' = k
    · simpa [ddel, h] using ih
    · have hne : k ≠ k' := fun hk => h hk.symm
      simp [ddel, h, dlookup, hne, ih]

theorem dlookup_ddel_ne (d : Dict) (k k' : String) (h : k' ≠ k) :
    dlookup (ddel d k) k' = dlookup d k' := by
  induction d with
  | nil => rfl
  | cons p rest ih =>
    obtain ⟨k'', v⟩ := p
    by_cases h2 : k'' = k
    · subst h2
      simp [ddel, dlookup, h, ih]
    · by_cases h3 : k' = k''
      · simp [ddel, dlookup, h2, h3]
      · simp [ddel, dlookup, h2, h3, ih]

theorem charsStart_self_append (l m : List Char) : charsStart l (l ++ m) = true := by
  induction l with
  | nil => rfl
  | cons c rest ih => simp [charsStart, ih]

theorem pyStartsWith_append (pre rest : String) :
    pyStartsWith (pre ++ rest) pre = true := by
  show charsStart pre.toList (pre ++ rest).toList = true
  have : (pre ++ rest).toList = pre.toList ++ rest.toList := by
    simp [String.toList]
  rw [this]
  exact charsStart_self_append _ _

/-! ## C1: round-trip of the synthetic Anthropic stream -/

/-- The synthetic SSE event stream of claim C1: a reasoning block with no
inline fragment and two thinking deltas "a", "b"; a text block with one
text delta "c"; then message_stop. -/
def c1_events : List RawEvent :=
  [.event (.obj [("type", .str "content_block_start"),
     ("content_block", .obj [("type", .str "thinking")])]),
   .event (.obj [("type", .str "content_block_delta"),
     ("delta", .obj [("type", .str "thinking_delta"), ("thinking", .str "a")])]),
   .event (.obj [("type", .str "content_block_delta"),
     ("delta", .obj [("type", .str "thinking_delta"), ("thinking", .str "b")])]),
   .event (.obj [("type", .str "content_block_stop")]),
   .event (.obj [("type", .str "content_block_start"),
     ("content_block", .obj [("type", .str "text")])]),
   .event (.obj [("type", .str "content_block_delta"),
     ("delta", .obj [("type", .str "text_delta"), ("text", .str "c")])]),
   .event (.obj [("type", .str "content_block_stop")]),
   .event (.obj [("type", .str "message_stop")])]

/-- C1: the Anthropic stream normalizer maps the synthetic event stream
block_start(reasoning), delta("a"), delta("b"), block_stop,
block_start(text), delta("c"), block_stop, message_stop to exactly the
fragment sequence ["<think>", "a", "b", "</think>", "c"], in that order,
and terminates at message_stop: whatever events follow message_stop are
never consumed and never emit. -/
theorem C1_stream_roundtrip :
    ∀ extra : List RawEvent,
      anthropicLoop none (c1_events ++ extra) =
        .done [.str "<think>", .str "a", .str "b", .str "</think>", .str "c"] :=
  fun _ => rfl

/-! ## C9: the non-streaming completion extractor -/

/-- A well-formed Anthropic content block: a reasoning block or a text
block, each carrying a string. -/
inductive RBlock where
  | thinking (s : String)
  | textBlock (s : String)

/-- The JSON shape of a content block in the vendor's response body. -/
def RBlock.toJson : RBlock → Json
  | .thinking s => .obj [("type", .str "thinking"), ("thinking", .str s)]
  | .textBlock s => .obj [("type", .str "text"), ("text", .str s)]

/-- The expected rendering: reasoning wrapped in think markers, text
verbatim, concatenated in document order. -/
def renderBlocks : List RBlock → String
  | [] => ""
  | .thinking s :: rest => "<think>" ++ s ++ "</think>" ++ renderBlocks rest
  | .textBlock s :: rest => s ++ renderBlocks rest

theorem extract_go_blocks (bs : List RBlock) :
    ∀ acc, anthropic_extract_go acc (bs.map RBlock.toJson) =
      .ok (acc ++ renderBlocks bs) := by
  induction bs with
  | nil => intro acc; simp [anthropic_extract_go, renderBlocks]
  | cons b rest ih =>
    intro acc
    cases b with
    | thinking s =>
      have h1 : anthropic_extract_go acc
          ((RBlock.thinking s).toJson :: rest.map RBlock.toJson) =
          anthropic_extract_go (acc ++ "<think>" ++ s ++ "</think>")
            (rest.map RBlock.toJson) := rfl
      rw [List.map_cons, h1, ih]
      simp [renderBlocks, String.append_assoc]
    | textBlock s =>
      have h1 : anthropic_extract_go acc
          ((RBlock.textBlock s).toJson :: rest.map RBlock.toJson) =
          anthropic_extract_go (acc ++ s) (rest.map RBlock.toJson) := rfl
      rw [List.map_cons, h1, ih]
      simp [renderBlocks, String.append_assoc]

/-- C9: the Anthropic non-streaming completion extractor (the 200 branch of
`get_completion`) yields "<think>r</think>t" for a body whose content is
one reasoning block "r" followed by one text block "t"; in general it
concatenates reasoning and text blocks in document order with each
reasoning block wrapped in think markers; and an absent or empty content
list yields the empty string, not an error. -/
theorem C9_completion_extractor :
    anthropic_extract (.obj [("content", .arr
      [.obj [("type", .str "thinking"), ("thinking", .str "r")],
       .obj [("type", .str "text"), ("text", .str "t")]])]) =
      .ok "<think>r</think>t"
    ∧ (∀ bs : List RBlock,
        anthropic_extract (.obj [("content", .arr (bs.map RBlock.toJson))]) =
          .ok (renderBlocks bs))
    ∧ (∀ fs : Dict, dlookup fs "content" = none →
        anthropic_extract (.obj fs) = .ok "")
    ∧ anthropic_extract (.obj [("content", .arr [])]) = .ok "" := by
  refine ⟨rfl, ?_, ?_, rfl⟩
  · intro bs
    have : anthropic_extract (.obj [("content", .arr (bs.map RBlock.toJson))]) =
        anthropic_extract_go "" (bs.map RBlock.toJson) := rfl
    rw [this, extract_go_blocks]
    simp
  · intro fs h
    simp [anthropic_extract, pyGetOptD, h, pyIter, Except.bind]
    rfl

/-- Witness for C9: the general-concatenation part applied to a concrete
two-block list, and the absent-content part applied to a concrete
content-free body. -/
theorem C9_witness :
    anthropic_extract (.obj [("content", .arr
      ([RBlock.thinking "x", RBlock.textBlock "y"].map RBlock.toJson))]) =
      .ok (renderBlocks [RBlock.thinking "x", RBlock.textBlock "y"])
    ∧ anthropic_extract (.obj [("id", .str "msg")]) = .ok "" :=
  ⟨C9_completion_extractor.2.1 [RBlock.thinking "x", RBlock.textBlock "y"],
   C9_completion_extractor.2.2.1 [("id", .str "msg")] rfl⟩

/-! ## C7: display-name derivation in the OpenRouter catalog -/

/-- C7 counterexample: for a remote record whose vendor-qualified `id` is
"vendor/alpha" but whose `name` field is "Team/Display", the transformation
produces the display name "Display" — the last path segment of the *name*
field — whereas the last path segment of the `id` field is "alpha".  So the
display name is NOT derived from the id field, refuting the claim as
stated. -/
theorem C7_counterexample :
    transform_models (.obj [("data", .arr
      [.obj [("id", .str "vendor/alpha"), ("name", .str "Team/Display")]])]) =
      .ok [.obj [("id", .str "vendor/alpha"), ("name", .str "Display"),
        ("description", .str ""), ("context_length", .null),
        ("pricing", .obj [("prompt", .null), ("completion", .null)])]]
    ∧ afterLastSlash "vendor/alpha" = "alpha"
    ∧ "Display" ≠ "alpha" :=
  ⟨rfl, rfl, by decide⟩

/-- A remote catalog record with all five fields present; `name` is the
string the vendor supplies. -/
structure ORec where
  recId : Json
  name : String
  description : Json
  context_length : Json
  pricing : List (String × Json)

/-- The JSON shape of a remote record. -/
def ORec.toJson (r : ORec) : Json :=
  .obj [("id", r.recId), ("name", .str r.name), ("description", r.description),
    ("context_length", r.context_length), ("pricing", .obj r.pricing)]

/-- The descriptor the transformation should produce from a record: the
display name is the last slash-separated segment of the record's `name`
field. -/
def ORec.toDescriptor (r : ORec) : Json :=
  .obj [("id", r.recId), ("name", .str (afterLastSlash r.name)),
    ("description", r.description), ("context_length", r.context_length),
    ("pricing", .obj [("prompt", (dlookup r.pricing "prompt").getD .null),
      ("completion", (dlookup r.pricing "completion").getD .null)])]

/-- Per-record transformation lemma for the amended C7. -/
theorem transform_models_go_map (recs : List ORec) :
    transform_models_go (recs.map ORec.toJson) = .ok (recs.map ORec.toDescriptor) := by
  induction recs with
  | nil => rfl
  | cons r rest ih =>
    calc transform_models_go (ORec.toJson r :: rest.map ORec.toJson)
        = (transform_models_go (rest.map ORec.toJson)).bind
            (fun rest2 => Except.ok (r.toDescriptor :: rest2)) := rfl
      _ = .ok (r.toDescriptor :: rest.map ORec.toDescriptor) := by
            rw [ih]
            rfl

/-- C7 (amended): on a successful OpenRouter catalog fetch, each remote
record is transformed into a model descriptor whose display name is the
last slash-separated path segment of that record's `name` field (not of its
`id` field). -/
theorem C7_display_name_amended (recs : List ORec) :
    transform_models (.obj [("data", .arr (recs.map ORec.toJson))]) =
      .ok (recs.map ORec.toDescriptor) := by
  have h : transform_models (.obj [("data", .arr (recs.map ORec.toJson))]) =
      transform_models_go (recs.map ORec.toJson) := rfl
  rw [h, transform_models_go_map]

/-! ## C5: the OpenRouter model-catalog cache -/

/-- A failed refresh attempt: a raised transport error, a non-200 status,
an undecodable body, or a transformation failure — everything the `except`
at line 94 catches. -/
def FetchFails : HttpResult → Prop
  | .netError => True
  | .resp status _ body =>
    status ≠ 200 ∨ body = none ∨
      ∃ b e, body = some b ∧ transform_models b = .error e

/-- C5: the OpenRouter model-catalog fetch
(1) returns the cached list unchanged, without any network request, when
called within 300 seconds of the last successful fetch;
(2) performs a refresh attempt whenever the cache is absent or older than
the window;
(3) on a failed refresh with an existing cache, returns the stale cached
list unchanged and leaves the stored state (cache and fetch timestamp)
unmodified;
(4) on a failed refresh with no cache, returns the fixed three-entry
fallback list. -/
theorem C5_catalog_cache :
    (∀ (st : CatalogState) (now : Rat) (net : HttpResult) (c : List Json),
      st.models_cache = some c → now - st.last_fetch_time < cache_duration →
      fetch_openrouter_models st now net = (c, st, false))
    ∧ (∀ (st : CatalogState) (now : Rat) (net : HttpResult),
      (st.models_cache = none ∨ ¬ now - st.last_fetch_time < cache_duration) →
      (fetch_openrouter_models st now net).2.2 = true)
    ∧ (∀ (st : CatalogState) (now : Rat) (net : HttpResult) (c : List Json),
      st.models_cache = some c → ¬ now - st.last_fetch_time < cache_duration →
      FetchFails net →
      fetch_openrouter_models st now net = (c, st, true))
    ∧ (∀ (st : CatalogState) (now : Rat) (net : HttpResult),
      st.models_cache = none → FetchFails net →
      fetch_openrouter_models st now net = (fallback_models, st, true)) := by
  refine ⟨?_, ?_, ?_, ?_⟩
  · intro st now net c hc hlt
    obtain ⟨mc, lt⟩ := st
    simp only at hc
    subst hc
    have hcond : (Option.some c).isSome ∧ now - lt < cache_duration := ⟨rfl, hlt⟩
    rw [fetch_openrouter_models, dif_pos hcond]
    rfl
  · intro st now net hfail
    have hcond : ¬ (st.models_cache.isSome ∧ now - st.last_fetch_time < cache_duration) := by
      rcases hfail with h | h
      · simp [h]
      · exact fun hc => h hc.2
    rw [fetch_openrouter_models, dif_neg hcond]
    rcases net with ⟨status, text, body⟩ | _
    · by_cases hs : status = 200
      · subst hs
        cases body with
        | none => cases st.models_cache <;> simp
        | some b =>
          cases htr : transform_models b with
          | ok l => simp [htr]
          | error e => cases st.models_cache <;> simp [htr]
      · cases st.models_cache <;> simp [hs]
    · cases st.models_cache <;> simp
  · intro st now net c hc hstale hfail
    obtain ⟨mc, lt⟩ := st
    simp only at hc
    subst hc
    have hcond : ¬ ((Option.some c).isSome ∧ now - lt < cache_duration) :=
      fun h => hstale h.2
    rw [fetch_openrouter_models, dif_neg hcond]
    rcases net with ⟨status, text, body⟩ | _
    · rcases hfail with hs | hb | ⟨b, e, hb, htr⟩
      · simp [hs]
      · subst hb
        by_cases hst : status = 200 <;> simp [hst]
      · subst hb
        by_cases hst : status = 200 <;> simp [hst, htr]
    · rfl
  · intro st now net hc hfail
    obtain ⟨mc, lt⟩ := st
    simp only at hc
    subst hc
    have hcond : ¬ ((Option.none (α := List Json)).isSome ∧ now - lt < cache_duration) := by
      simp
    rw [fetch_openrouter_models, dif_neg hcond]
    rcases net with ⟨status, text, body⟩ | _
    · rcases hfail with hs | hb | ⟨b, e, hb, htr⟩
      · simp [hs]
      · subst hb
        by_cases hst : status = 200 <;> simp [hst]
      · subst hb
        by_cases hst : status = 200 <;> simp [hst, htr]
    · rfl

/-- Witness for C5: a concrete state with a fresh cache returns it without
a network call; a concrete empty-cache state with a failing (500) refresh
returns the fallback list. -/
theorem C5_witness :
    fetch_openrouter_models ⟨some [.obj [("id", .str "m")]], 1000⟩ 1100
        (.resp 500 "down" none) = ([.obj [("id", .str "m")]], ⟨some [.obj [("id", .str "m")]], 1000⟩, false)
    ∧ fetch_openrouter_models ⟨none, 0⟩ 1100 (.resp 500 "down" none) =
        (fallback_models, ⟨none, 0⟩, true) :=
  ⟨C5_catalog_cache.1 ⟨some [.obj [("id", .str "m")]], 1000⟩ 1100
      (.resp 500 "down" none) [.obj [("id", .str "m")]] rfl (by norm_num [cache_duration]),
   C5_catalog_cache.2.2.2 ⟨none, 0⟩ 1100 (.resp 500 "down" none) rfl
      (Or.inl (by norm_num))⟩

/-! ## C4: malformed events are skipped -/

/-- A malformed Anthropic stream event in the sense of the resilience
policy: an undecodable payload, or a decoded event whose processing raises
`KeyError` (missing expected key) — before yielding anything or changing
the block state, which holds of every `KeyError` the loop body can raise. -/
def AnthropicSkipped (e : RawEvent) : Prop :=
  e = .malformed ∨
    ∃ j k, e = .event j ∧
      ∀ cur, anthropicHandle cur j = .error (.keyError k, [])

/-- A malformed Fireworks stream line: an undecodable `data: ` payload or
one whose processing raises `KeyError`. -/
def FireworksSkipped (l : RawLine) : Prop :=
  l = .dataLine .malformed ∨
    ∃ j k, l = .dataLine (.event j) ∧ fireworksHandle j = .error (.keyError k)

/-- A malformed OpenRouter stream line: an undecodable `data: ` payload, or
one from which no fragment is extracted (the missing-key guards all fail)
or whose processing raises `KeyError`. -/
def OpenrouterSkipped (l : RawLine) : Prop :=
  l = .dataLine .malformed ∨
    ∃ j, l = .dataLine (.event j) ∧
      (openrouterHandle j = .ok [] ∨ ∃ k, openrouterHandle j = .error (.keyError k))

theorem anthropic_skip_lemma (e : RawEvent) (he : AnthropicSkipped e)
    (pre : List RawEvent) : ∀ (cur : Option Json) post,
    anthropicLoop cur (pre ++ e :: post) = anthropicLoop cur (pre ++ post) := by
  induction pre with
  | nil =>
    intro cur post
    rcases he with h | ⟨j, k, hj, hk⟩
    · subst h
      rfl
    · subst hj
      show anthropicLoop cur (.event j :: post) = _
      simp only [anthropicLoop, hk cur, StreamResult.prepend_nil]
      rfl
  | cons x rest ih =>
    intro cur post
    cases x with
    | malformed =>
      simp only [List.cons_append, anthropicLoop]
      exact ih cur post
    | event d =>
      simp only [List.cons_append, anthropicLoop]
      cases h : anthropicHandle cur d with
      | ok t =>
        obtain ⟨cur', out, stop⟩ := t
        cases stop
        · exact congrArg (StreamResult.prepend out) (ih cur' post)
        · rfl
      | error p =>
        obtain ⟨e', out⟩ := p
        cases e' with
        | keyError k' => exact congrArg (StreamResult.prepend out) (ih cur post)
        | valueError m => rfl
        | jsonError => rfl
        | typeError m => rfl
        | exception m => rfl

theorem fireworks_skip_lemma (l : RawLine) (hl : FireworksSkipped l)
    (pre : List RawLine) : ∀ post,
    fireworksLoop (pre ++ l :: post) = fireworksLoop (pre ++ post) := by
  induction pre with
  | nil =>
    intro post
    rcases hl with h | ⟨j, k, hj, hk⟩
    · subst h
      rfl
    · subst hj
      show fireworksLoop (.dataLine (.event j) :: post) = _
      simp only [fireworksLoop, hk]
      rfl
  | cons x rest ih =>
    intro post
    cases x with
    | blank =>
      simp only [List.cons_append, fireworksLoop]
      exact ih post
    | other =>
      simp only [List.cons_append, fireworksLoop]
      exact ih post
    | dataLine ev =>
      cases ev with
      | malformed =>
        simp only [List.cons_append, fireworksLoop]
        exact ih post
      | event d =>
        simp only [List.cons_append, fireworksLoop]
        cases h : fireworksHandle d with
        | ok out =>
          have h2 : fireworksLoop (rest.append (l :: post)) =
              fireworksLoop (rest.append post) := ih post
          rw [h2]
        | error e' =>
          cases e' with
          | keyError k' => exact ih post
          | valueError m => rfl
          | jsonError => rfl
          | typeError m => rfl
          | exception m => rfl

theorem openrouter_skip_lemma (l : RawLine) (hl : OpenrouterSkipped l)
    (pre : List RawLine) : ∀ post,
    openrouterLoop (pre ++ l :: post) = openrouterLoop (pre ++ post) := by
  induction pre with
  | nil =>
    intro post
    rcases hl with h | ⟨j, hj, hok | ⟨k, hk⟩⟩
    · subst h
      rfl
    · subst hj
      show openrouterLoop (.dataLine (.event j) :: post) = _
      simp only [openrouterLoop, hok, List.nil_append]
    · subst hj
      show openrouterLoop (.dataLine (.event j) :: post) = _
      simp only [openrouterLoop, hk]
      rfl
  | cons x rest ih =>
    intro post
    cases x with
    | blank =>
      simp only [List.cons_append, openrouterLoop]
      exact ih post
    | other =>
      simp only [List.cons_append, openrouterLoop]
      exact ih post
    | dataLine ev =>
      cases ev with
      | malformed =>
        simp only [List.cons_append, openrouterLoop]
        exact ih post
      | event d =>
        simp only [List.cons_append, openrouterLoop]
        cases h : openrouterHandle d with
        | ok out =>
          have h2 : openrouterLoop (rest.append (l :: post)) =
              openrouterLoop (rest.append post) := ih post
          rw [h2]
        | error e' =>
          cases e' with
          | keyError k' => exact ih post
          | valueError m => rfl
          | jsonError => rfl
          | typeError m => rfl
          | exception m => rfl

/-- C4: for each adapter's stream normalizer, a malformed event
(undecodable JSON payload, or an event whose processing hits a missing
expected key) anywhere in the stream is skipped exactly: the output — in
particular every fragment produced by the valid events after the malformed
one — is identical to the output for the same stream with the malformed
event removed. -/
theorem C4_malformed_event_skipped :
    (∀ e, AnthropicSkipped e → ∀ (cur : Option Json) pre post,
      anthropicLoop cur (pre ++ e :: post) = anthropicLoop cur (pre ++ post))
    ∧ (∀ l, FireworksSkipped l → ∀ pre post,
      fireworksLoop (pre ++ l :: post) = fireworksLoop (pre ++ post))
    ∧ (∀ l, OpenrouterSkipped l → ∀ pre post,
      openrouterLoop (pre ++ l :: post) = openrouterLoop (pre ++ post)) :=
  ⟨fun e he cur pre post => anthropic_skip_lemma e he pre cur post,
   fun l hl pre post => fireworks_skip_lemma l hl pre post,
   fun l hl pre post => openrouter_skip_lemma l hl pre post⟩

/-- Witness for C4: an Anthropic event missing its `"type"` key inserted
inside the C1 stream leaves the output unchanged; an undecodable Fireworks
line and an undecodable OpenRouter line likewise. -/
theorem C4_witness :
    anthropicLoop none
        (c1_events.take 1 ++ RawEvent.event (.obj [("x", .null)]) :: c1_events.drop 1) =
      anthropicLoop none (c1_events.take 1 ++ c1_events.drop 1)
    ∧ fireworksLoop ([] ++ RawLine.dataLine .malformed ::
        [.dataLine (.event (.obj [("choices", .arr [.obj [("delta",
          .obj [("content", .str "hello")])]])]))]) =
      fireworksLoop ([] ++ [.dataLine (.event (.obj [("choices", .arr [.obj [("delta",
        .obj [("content", .str "hello")])]])]))])
    ∧ openrouterLoop ([] ++ RawLine.dataLine .malformed :: []) = openrouterLoop ([] ++ []) :=
  ⟨C4_malformed_event_skipped.1 (RawEvent.event (.obj [("x", .null)]))
      (Or.inr ⟨.obj [("x", .null)], "type", rfl, fun _ => rfl⟩)
      none (c1_events.take 1) (c1_events.drop 1),
   C4_malformed_event_skipped.2.1 (RawLine.dataLine .malformed) (Or.inl rfl) [] _,
   C4_malformed_event_skipped.2.2 (RawLine.dataLine .malformed) (Or.inl rfl) [] []⟩

/-! ## Payload lemmas for C3 / C6 -/

theorem system_segment_lookup (sys : Option Json) (k : String)
    (hk : k ≠ "system") : dlookup (system_segment sys) k = none := by
  rcases sys with _ | sv
  · rfl
  · show dlookup (if pyTruthy sv = true then [("system", Json.str (pyStr sv))] else []) k = none
    by_cases h : pyTruthy sv = true
    · rw [if_pos h]
      simp [dlookup, hk]
    · rw [if_neg h]
      rfl

theorem base_payload_lookup (mid : String) (pm : List Json)
    (sys : Option Json) (body : Dict) (k : String)
    (hhead : dlookup (anthropic_payload_head mid pm body) k = none)
    (hsys : k ≠ "system") (hstream : k ≠ "stream") :
    dlookup (anthropic_base_payload mid pm sys body) k = none := by
  unfold anthropic_base_payload
  rw [dlookup_append, dlookup_append, hhead, system_segment_lookup sys k hsys]
  simp [dlookup, hstream]

theorem base_payload_max_tokens (mid : String) (pm : List Json)
    (sys : Option Json) (body : Dict) :
    dlookup (anthropic_base_payload mid pm sys body) "max_tokens" =
      some (dgetD body "max_tokens" (.num 4096)) := rfl

theorem build_payload_false (budget : Rat) (mid : String) (pm : List Json)
    (sys : Option Json) (body : Dict) :
    anthropic_build_payload budget mid pm sys body false =
      .ok (anthropic_base_payload mid pm sys body) := rfl

/-- The payload after the four thinking-mode key edits of lines 170-176. -/
def anthropic_thinking_edits (budget : Rat) (base : Dict) : Dict :=
  ddel (ddel (dset (dset base "thinking"
    (.obj [("type", .str "enabled"), ("budget_tokens", .num budget)]))
    "temperature" (.num 1)) "top_k") "top_p"

theorem build_payload_true (budget : Rat) (mid : String) (pm : List Json)
    (sys : Option Json) (body : Dict) (p : Dict)
    (h : anthropic_build_payload budget mid pm sys body true = .ok p) :
    ∃ m : Rat, dgetD body "max_tokens" (.num 4096) = .num m ∧
      p = (if m ≤ budget then
            dset (anthropic_thinking_edits budget (anthropic_base_payload mid pm sys body))
              "max_tokens" (.num (budget + 1000))
          else anthropic_thinking_edits budget (anthropic_base_payload mid pm sys body)) := by
  have hmt : dlookup (anthropic_thinking_edits budget (anthropic_base_payload mid pm sys body))
      "max_tokens" = some (dgetD body "max_tokens" (.num 4096)) := by
    unfold anthropic_thinking_edits
    rw [dlookup_ddel_ne _ _ _ (by decide), dlookup_ddel_ne _ _ _ (by decide),
        dlookup_dset_ne _ _ _ _ (by decide), dlookup_dset_ne _ _ _ _ (by decide),
        base_payload_max_tokens]
  rw [anthropic_build_payload] at h
  simp only [if_true] at h
  rw [show (ddel (ddel (dset (dset (anthropic_base_payload mid pm sys body) "thinking"
      (.obj [("type", .str "enabled"), ("budget_tokens", .num budget)]))
      "temperature" (.num 1)) "top_k") "top_p") =
    anthropic_thinking_edits budget (anthropic_base_payload mid pm sys body) from rfl] at h
  rw [hmt] at h
  cases hv : dgetD body "max_tokens" (.num 4096) with
  | num m =>
    rw [hv] at h
    refine ⟨m, rfl, ?_⟩
    have h2 : (if decide (m ≤ budget) = true then
        Except.ok (dset (anthropic_thinking_edits budget (anthropic_base_payload mid pm sys body))
          "max_tokens" (.num (budget + 1000)))
      else Except.ok (anthropic_thinking_edits budget (anthropic_base_payload mid pm sys body))) =
        Except.ok p := h
    by_cases hle : m ≤ budget
    · rw [if_pos (decide_eq_true hle)] at h2
      rw [if_pos hle]
      exact (Except.ok.inj h2).symm
    · rw [if_neg (by simp [hle])] at h2
      rw [if_neg hle]
      exact (Except.ok.inj h2).symm
  | str sv =>
    rw [hv] at h
    exact Except.noConfusion h
  | bool bv =>
    rw [hv] at h
    exact Except.noConfusion h
  | null =>
    rw [hv] at h
    exact Except.noConfusion h
  | arr av =>
    rw [hv] at h
    exact Except.noConfusion h
  | obj ov =>
    rw [hv] at h
    exact Except.noConfusion h

/-- Inversion of `anthropic_pipe_core` success: the payload comes from
`anthropic_build_payload` applied to the processed messages and the
stripped body, and the stream flag is `body.get("stream", False)` on the
stripped body. -/
theorem anthropic_core_inv (budget : Rat) (um mid : String)
    (msgs : List Json) (body : Dict) (p : Dict) (sf : Json)
    (h : anthropic_pipe_core budget um mid msgs body = .ok (p, sf)) :
    ∃ m1 pm,
      update_user_message um msgs = .ok m1 ∧
      process_messages 0 0 (pop_system_message m1).2 = .ok pm ∧
      anthropic_build_payload budget
        (if mid = "claude-3-7-sonnet-think" then "claude-3-7-sonnet-20250219" else mid)
        pm (pop_system_message m1).1 (strip_host_keys body)
        (decide (mid = "claude-3-7-sonnet-think")) = .ok p ∧
      sf = dgetD (strip_host_keys body) "stream" (.bool false) := by
  rw [anthropic_pipe_core] at h
  cases hu : update_user_message um msgs with
  | error e =>
    rw [hu] at h
    exact Except.noConfusion h
  | ok m1 =>
    rw [hu] at h
    refine ⟨m1, ?_⟩
    cases hpm : process_messages 0 0 (pop_system_message m1).2 with
    | error e =>
      have h2 : Except.error (α := Dict × Json) e = .ok (p, sf) := by
        rw [← h]
        show _ = Except.bind (process_messages 0 0 (pop_system_message m1).2) _
        rw [hpm]
        rfl
      exact Except.noConfusion h2
    | ok pm =>
      refine ⟨pm, rfl, rfl, ?_⟩
      have h2 : (anthropic_build_payload budget
          (if mid = "claude-3-7-sonnet-think" then "claude-3-7-sonnet-20250219" else mid)
          pm (pop_system_message m1).1 (strip_host_keys body)
          (decide (mid = "claude-3-7-sonnet-think"))).bind
            (fun payload => Except.ok (payload, dgetD (strip_host_keys body) "stream" (.bool false))) =
          .ok (p, sf) := by
        rw [← h]
        show _ = Except.bind (process_messages 0 0 (pop_system_message m1).2) _
        rw [hpm]
        rfl
      cases hb : anthropic_build_payload budget
          (if mid = "claude-3-7-sonnet-think" then "claude-3-7-sonnet-20250219" else mid)
          pm (pop_system_message m1).1 (strip_host_keys body)
          (decide (mid = "claude-3-7-sonnet-think")) with
      | error e =>
        rw [hb] at h2
        exact Except.noConfusion h2
      | ok payload =>
        rw [hb] at h2
        have h3 : (payload, dgetD (strip_host_keys body) "stream" (.bool false)) = (p, sf) :=
          Except.ok.inj h2
        have hp : payload = p := congrArg Prod.fst h3
        have hs : dgetD (strip_host_keys body) "stream" (.bool false) = sf := congrArg Prod.snd h3
        exact ⟨hp ▸ rfl, hs.symm⟩

theorem dgetD_strip (body : Dict) (k : String) (d : Json)
    (h1 : k ≠ "user") (h2 : k ≠ "chat_id") (h3 : k ≠ "title") :
    dgetD (strip_host_keys body) k d = dgetD body k d := by
  unfold strip_host_keys dgetD
  rw [dlookup_ddel_ne _ _ _ h3, dlookup_ddel_ne _ _ _ h2, dlookup_ddel_ne _ _ _ h1]

/-- C3: for every Anthropic request with the reasoning model variant
"claude-3-7-sonnet-think" whose pipe reaches the vendor call, the outgoing
payload has temperature 1.0, no top_k or top_p keys, thinking parameters
with budget_tokens equal to the configured THINKING_BUDGET, and a
max_tokens strictly greater than the budget — equal to the requested value
when that was already greater, and raised to budget + 1000 otherwise. -/
theorem C3_thinking_payload (budget : Rat) (um : String) (messages : List Json)
    (body : Dict) (p : Dict) (sf : Json)
    (h : anthropic_pipe_core budget um "claude-3-7-sonnet-think" messages body =
      .ok (p, sf)) :
    dlookup p "temperature" = some (.num 1)
    ∧ dlookup p "top_k" = none
    ∧ dlookup p "top_p" = none
    ∧ dlookup p "thinking" =
        some (.obj [("type", .str "enabled"), ("budget_tokens", .num budget)])
    ∧ ∃ m M : Rat,
        dgetD body "max_tokens" (.num 4096) = .num m
        ∧ dlookup p "max_tokens" = some (.num M)
        ∧ budget < M
        ∧ (budget < m → M = m)
        ∧ (m ≤ budget → M = budget + 1000) := by
  obtain ⟨m1, pm, hu, hpm, hb, hs⟩ := anthropic_core_inv _ _ _ _ _ _ _ h
  rw [if_pos rfl] at hb
  rw [show decide ("claude-3-7-sonnet-think" = "claude-3-7-sonnet-think") = true
    from by decide] at hb
  obtain ⟨m, hm, hp⟩ := build_payload_true _ _ _ _ _ _ hb
  rw [dgetD_strip _ _ _ (by decide) (by decide) (by decide)] at hm
  subst hp
  by_cases hle : m ≤ budget
  · rw [if_pos hle]
    refine ⟨?_, ?_, ?_, ?_, m, budget + 1000, hm, ?_, by linarith,
      fun hgt => absurd hle (not_le.mpr hgt), fun _ => rfl⟩
    · rw [dlookup_dset_ne _ _ _ _ (by decide)]
      unfold anthropic_thinking_edits
      rw [dlookup_ddel_ne _ _ _ (by decide), dlookup_ddel_ne _ _ _ (by decide),
          dlookup_dset_self]
    · rw [dlookup_dset_ne _ _ _ _ (by decide)]
      unfold anthropic_thinking_edits
      rw [dlookup_ddel_ne _ _ _ (by decide), dlookup_ddel_self]
    · rw [dlookup_dset_ne _ _ _ _ (by decide)]
      unfold anthropic_thinking_edits
      rw [dlookup_ddel_self]
    · rw [dlookup_dset_ne _ _ _ _ (by decide)]
      unfold anthropic_thinking_edits
      rw [dlookup_ddel_ne _ _ _ (by decide), dlookup_ddel_ne _ _ _ (by decide),
          dlookup_dset_ne _ _ _ _ (by decide), dlookup_dset_self]
    · rw [dlookup_dset_self]
  · have hgt : budget < m := not_le.mp hle
    rw [if_neg hle]
    refine ⟨?_, ?_, ?_, ?_, m, m, hm, ?_, hgt, fun _ => rfl,
      fun hc => absurd hc hle⟩
    · unfold anthropic_thinking_edits
      rw [dlookup_ddel_ne _ _ _ (by decide), dlookup_ddel_ne _ _ _ (by decide),
          dlookup_dset_self]
    · unfold anthropic_thinking_edits
      rw [dlookup_ddel_ne _ _ _ (by decide), dlookup_ddel_self]
    · unfold anthropic_thinking_edits
      rw [dlookup_ddel_self]
    · unfold anthropic_thinking_edits
      rw [dlookup_ddel_ne _ _ _ (by decide), dlookup_ddel_ne _ _ _ (by decide),
          dlookup_dset_ne _ _ _ _ (by decide), dlookup_dset_self]
    · unfold anthropic_thinking_edits
      rw [dlookup_ddel_ne _ _ _ (by decide), dlookup_ddel_ne _ _ _ (by decide),
          dlookup_dset_ne _ _ _ _ (by decide), dlookup_dset_ne _ _ _ _ (by decide),
          base_payload_max_tokens,
          dgetD_strip _ _ _ (by decide) (by decide) (by decide), hm]

/-- Witness for C3: a concrete thinking-mode request (empty messages, empty
body, budget 16000) produces a payload with temperature 1, no top_k/top_p,
the thinking parameters, and max_tokens 17000 > 16000 (the default 4096 was
not greater than the budget). -/
theorem C3_witness :
    ∃ p sf,
      anthropic_pipe_core 16000 "hi" "claude-3-7-sonnet-think" [] [] = .ok (p, sf)
      ∧ dlookup p "temperature" = some (.num 1)
      ∧ dlookup p "top_k" = none
      ∧ dlookup p "top_p" = none
      ∧ dlookup p "thinking" =
          some (.obj [("type", .str "enabled"), ("budget_tokens", .num 16000)])
      ∧ ∃ m M : Rat, dgetD [] "max_tokens" (.num 4096) = .num m
          ∧ dlookup p "max_tokens" = some (.num M) ∧ 16000 < M := by
  refine ⟨_, _, rfl, ?_⟩
  have t := C3_thinking_payload 16000 "hi" [] [] _ _ rfl
  obtain ⟨h1, h2, h3, h4, m, M, hm, hM, hlt, _, _⟩ := t
  exact ⟨h1, h2, h3, h4, m, M, hm, hM, hlt⟩

theorem thinking_edits_lookup_ne (budget : Rat) (base : Dict) (k : String)
    (h1 : k ≠ "thinking") (h2 : k ≠ "temperature") (h3 : k ≠ "top_k")
    (h4 : k ≠ "top_p") :
    dlookup (anthropic_thinking_edits budget base) k = dlookup base k := by
  unfold anthropic_thinking_edits
  rw [dlookup_ddel_ne _ _ _ h4, dlookup_ddel_ne _ _ _ h3,
      dlookup_dset_ne _ _ _ _ h2, dlookup_dset_ne _ _ _ _ h1]

/-- The Fireworks pipe never raises before the HTTP call: its payload has
the fixed key set, which excludes the host bookkeeping keys. -/
theorem fireworks_core_payload_keys (mid : String) (msgs : List Json)
    (body : Dict) :
    ∃ p sf, fireworks_pipe_core mid msgs body = .ok (p, sf)
      ∧ dlookup p "user" = none ∧ dlookup p "chat_id" = none
      ∧ dlookup p "title" = none :=
  ⟨_, _, rfl, rfl, rfl, rfl⟩

/-- C6: for every request to any of the three adapters that reaches the
vendor call, the host bookkeeping keys "user", "chat_id" and "title" are
absent from the outgoing payload. -/
theorem C6_host_keys_never_sent :
    (∀ (budget : Rat) (um mid : String) (msgs : List Json) (body : Dict)
        (p : Dict) (sf : Json),
      anthropic_pipe_core budget um mid msgs body = .ok (p, sf) →
      dlookup p "user" = none ∧ dlookup p "chat_id" = none
        ∧ dlookup p "title" = none)
    ∧ (∀ (mid : String) (msgs : List Json) (body : Dict) (p : Dict) (sf : Json),
      fireworks_pipe_core mid msgs body = .ok (p, sf) →
      dlookup p "user" = none ∧ dlookup p "chat_id" = none
        ∧ dlookup p "title" = none)
    ∧ (∀ (body : Dict) (p : Dict) (sf : Json),
      openrouter_pipe_core body = .ok (p, sf) →
      dlookup p "user" = none ∧ dlookup p "chat_id" = none
        ∧ dlookup p "title" = none) := by
  refine ⟨?_, ?_, ?_⟩
  · intro budget um mid msgs body p sf h
    obtain ⟨m1, pm, hu, hpm, hb, hs⟩ := anthropic_core_inv _ _ _ _ _ _ _ h
    by_cases hm : mid = "claude-3-7-sonnet-think"
    · rw [show decide (mid = "claude-3-7-sonnet-think") = true
        from decide_eq_true hm] at hb
      obtain ⟨m, hmm, hp⟩ := build_payload_true _ _ _ _ _ _ hb
      subst hp
      refine ⟨?_, ?_, ?_⟩ <;>
        (by_cases hle : m ≤ budget
         · rw [if_pos hle, dlookup_dset_ne _ _ _ _ (by decide),
             thinking_edits_lookup_ne _ _ _ (by decide) (by decide) (by decide) (by decide)]
           exact base_payload_lookup _ _ _ _ _ rfl (by decide) (by decide)
         · rw [if_neg hle,
             thinking_edits_lookup_ne _ _ _ (by decide) (by decide) (by decide) (by decide)]
           exact base_payload_lookup _ _ _ _ _ rfl (by decide) (by decide))
    · rw [show decide (mid = "claude-3-7-sonnet-think") = false
        from decide_eq_false hm] at hb
      rw [if_neg hm, build_payload_false] at hb
      have hp : anthropic_base_payload mid pm (pop_system_message m1).1
          (strip_host_keys body) = p := Except.ok.inj hb
      subst hp
      exact ⟨base_payload_lookup _ _ _ _ _ rfl (by decide) (by decide),
        base_payload_lookup _ _ _ _ _ rfl (by decide) (by decide),
        base_payload_lookup _ _ _ _ _ rfl (by decide) (by decide)⟩
  · intro mid msgs body p sf h
    obtain ⟨p', sf', he, h1, h2, h3⟩ := fireworks_core_payload_keys mid msgs body
    rw [he] at h
    injection h with hpair
    injection hpair with hp hsf
    subst hp
    exact ⟨h1, h2, h3⟩
  · intro body p sf h
    rw [openrouter_pipe_core] at h
    cases hm1 : dlookup body "messages" with
    | none =>
      rw [hm1] at h
      exact Except.noConfusion h
    | some mv =>
      rw [hm1] at h
      cases mv with
      | arr l =>
        cases hm2 : dlookup body "model" with
        | none =>
          rw [hm2] at h
          exact Except.noConfusion h
        | some mdl =>
          rw [hm2] at h
          injection h with hpair
          injection hpair with hp hsf
          subst hp
          exact ⟨rfl, rfl, rfl⟩
      | str s => exact Except.noConfusion h
      | num q => exact Except.noConfusion h
      | bool b => exact Except.noConfusion h
      | null => exact Except.noConfusion h
      | obj fs => exact Except.noConfusion h

/-- Witness for C6: one concrete request per adapter, each with a host
bookkeeping key present in the incoming body, whose payload carries none of
the three keys. -/
theorem C6_witness :
    (∃ p sf, anthropic_pipe_core 16000 "hi" "claude-3-5-haiku-20241022" []
        [("user", .str "u")] = .ok (p, sf)
      ∧ dlookup p "user" = none ∧ dlookup p "chat_id" = none
      ∧ dlookup p "title" = none)
    ∧ (∃ p sf, fireworks_pipe_core "deepseek-v3" [] [("chat_id", .str "c")] =
        .ok (p, sf)
      ∧ dlookup p "user" = none ∧ dlookup p "chat_id" = none
      ∧ dlookup p "title" = none)
    ∧ (∃ p sf, openrouter_pipe_core
        [("messages", .arr []), ("model", .str "m"), ("title", .null)] = .ok (p, sf)
      ∧ dlookup p "user" = none ∧ dlookup p "chat_id" = none
      ∧ dlookup p "title" = none) := by
  refine ⟨⟨_, _, rfl, ?_⟩, ⟨_, _, rfl, ?_⟩, ⟨_, _, rfl, ?_⟩⟩
  · exact C6_host_keys_never_sent.1 16000 "hi" "claude-3-5-haiku-20241022" []
      [("user", .str "u")] _ _ rfl
  · exact C6_host_keys_never_sent.2.1 "deepseek-v3" [] [("chat_id", .str "c")] _ _ rfl
  · exact C6_host_keys_never_sent.2.2
      [("messages", .arr []), ("model", .str "m"), ("title", .null)] _ _ rfl

/-! ## C10: in-place mutation of the host's request objects -/

theorem dset_eq_self (d : Dict) (k : String) (v : Json)
    (h : dlookup d k = some v) : dset d k v = d := by
  induction d with
  | nil => exact Option.noConfusion h
  | cons p rest ih =>
    obtain ⟨k', v'⟩ := p
    by_cases hk : k = k'
    · subst hk
      rw [dlookup] at h
      rw [if_pos rfl] at h
      have hv : v' = v := Option.some.inj h
      subst hv
      simp [dset]
    · rw [dlookup, if_neg hk] at h
      simp [dset, hk, ih h]

theorem optIsStr_eq (o : Option Json) (s : String) (h : optIsStr o s = true) :
    o = some (.str s) := by
  cases o with
  | none => exact Bool.noConfusion h
  | some j =>
    cases j with
    | str t =>
      have : t = s := by
        have h2 : decide (t = s) = true := h
        exact of_decide_eq_true h2
      rw [this]
    | num q => exact Bool.noConfusion h
    | bool b => exact Bool.noConfusion h
    | null => exact Bool.noConfusion h
    | arr l => exact Bool.noConfusion h
    | obj fs => exact Bool.noConfusion h

/-- The user-message rewrite of lines 113-119 writes back the value that is
already there (`user_message` saved as `original_message` at line 96), so
on dict-shaped messages it returns the list unchanged. -/
theorem update_user_message_id (um : String) (msgs : List Json)
    (h : ∀ m ∈ msgs, ∃ fs, m = Json.obj fs) :
    update_user_message um msgs = .ok msgs := by
  induction msgs with
  | nil => rfl
  | cons m rest ih =>
    obtain ⟨fs, hm⟩ := h m (List.mem_cons_self m rest)
    subst hm
    have hred : update_user_message um (Json.obj fs :: rest) =
        (if (optIsStr (dlookup fs "role") "user"
            && optIsStr (dlookup fs "content") um) = true
          then Except.ok (Json.obj (dset fs "content" (.str um)) :: rest)
          else (update_user_message um rest).bind
            (fun r2 => Except.ok (Json.obj fs :: r2))) := rfl
    rw [hred]
    by_cases hg : (optIsStr (dlookup fs "role") "user"
        && optIsStr (dlookup fs "content") um) = true
    · rw [if_pos hg]
      have hc : dlookup fs "content" = some (.str um) :=
        optIsStr_eq _ _ (Bool.and_elim_right hg)
      rw [dset_eq_self _ _ _ hc]
    · rw [if_neg hg, ih (fun m hm => h m (List.mem_cons_of_mem _ hm))]
      rfl

/-- C10: a completed `pipe` call on the Anthropic or Fireworks adapter
leaves the caller's body dict equal to the original minus the keys "user",
"chat_id" and "title" (modelled by `strip_host_keys`, applied by both
`anthropic_pipe_core` and `fireworks_pipe_core` before any read): the three
keys are removed when present — so a body carrying any of them is mutated —
and every other key keeps its original value; the Anthropic in-place
rewrite of the user message writes back the identical content, leaving the
caller's messages list value-unchanged. -/
theorem C10_body_mutation :
    (∀ body : Dict,
      dlookup (strip_host_keys body) "user" = none
      ∧ dlookup (strip_host_keys body) "chat_id" = none
      ∧ dlookup (strip_host_keys body) "title" = none)
    ∧ (∀ (body : Dict) (k : String),
      k ≠ "user" → k ≠ "chat_id" → k ≠ "title" →
      dlookup (strip_host_keys body) k = dlookup body k)
    ∧ (∀ body : Dict,
      (dlookup body "user" ≠ none ∨ dlookup body "chat_id" ≠ none
        ∨ dlookup body "title" ≠ none) →
      strip_host_keys body ≠ body)
    ∧ (∀ (um : String) (msgs : List Json),
      (∀ m ∈ msgs, ∃ fs, m = Json.obj fs) →
      update_user_message um msgs = .ok msgs) := by
  have hlook : ∀ body : Dict,
      dlookup (strip_host_keys body) "user" = none
      ∧ dlookup (strip_host_keys body) "chat_id" = none
      ∧ dlookup (strip_host_keys body) "title" = none := by
    intro body
    unfold strip_host_keys
    refine ⟨?_, ?_, ?_⟩
    · rw [dlookup_ddel_ne _ _ _ (by decide), dlookup_ddel_ne _ _ _ (by decide),
        dlookup_ddel_self]
    · rw [dlookup_ddel_ne _ _ _ (by decide), dlookup_ddel_self]
    · rw [dlookup_ddel_self]
  refine ⟨hlook, ?_, ?_, update_user_message_id⟩
  · intro body k h1 h2 h3
    unfold strip_host_keys
    rw [dlookup_ddel_ne _ _ _ h3, dlookup_ddel_ne _ _ _ h2, dlookup_ddel_ne _ _ _ h1]
  · intro body hne heq
    rcases hne with h | h | h
    · exact h (heq ▸ (hlook body).1)
    · exact h (heq ▸ (hlook body).2.1)
    · exact h (heq ▸ (hlook body).2.2)

/-- Witness for C10: a concrete body holding all three keys plus one other
key loses exactly the three; a concrete dict-shaped message list passes
through the rewrite unchanged. -/
theorem C10_witness :
    dlookup (strip_host_keys [("user", .str "u"), ("max_tokens", .num 64),
      ("chat_id", .str "c"), ("title", .str "t")]) "user" = none
    ∧ dlookup (strip_host_keys [("user", .str "u"), ("max_tokens", .num 64),
      ("chat_id", .str "c"), ("title", .str "t")]) "max_tokens" =
        dlookup [("user", .str "u"), ("max_tokens", .num 64),
          ("chat_id", .str "c"), ("title", .str "t")] "max_tokens"
    ∧ strip_host_keys [("user", .str "u"), ("max_tokens", .num 64),
        ("chat_id", .str "c"), ("title", .str "t")] ≠
      [("user", .str "u"), ("max_tokens", .num 64),
        ("chat_id", .str "c"), ("title", .str "t")]
    ∧ update_user_message "hello"
        [.obj [("role", .str "user"), ("content", .str "hello")]] =
      .ok [.obj [("role", .str "user"), ("content", .str "hello")]] :=
  ⟨(C10_body_mutation.1 _).1,
   C10_body_mutation.2.1 _ "max_tokens" (by decide) (by decide) (by decide),
   C10_body_mutation.2.2.1 _ (Or.inl (by simp [dlookup])),
   C10_body_mutation.2.2.2 "hello" _
     (fun m hm => ⟨[("role", .str "user"), ("content", .str "hello")],
       by simpa using hm⟩)⟩

/-! ## C8: image count and size limits -/

/-- A well-formed content part of a host message: text, an inline base64
data-URI image (`data:image/<mt>;base64,<data>`), or a remote-URL image. -/
inductive HostItem where
  | textItem (s : String)
  | imageB64 (mt data : String)
  | imageUrl (u : String)

/-- The JSON shape of a content part in the host request. -/
def HostItem.toJson : HostItem → Json
  | .textItem s => .obj [("type", .str "text"), ("text", .str s)]
  | .imageB64 mt d => .obj [("type", .str "image_url"),
      ("image_url", .obj [("url", .str ("data:image/" ++ mt ++ ";base64," ++ d))])]
  | .imageUrl u => .obj [("type", .str "image_url"),
      ("image_url", .obj [("url", .str u)])]

/-- Well-formedness: the media-type part of a data URI contains no comma
(so `split(",", 1)` cuts at the `;base64,` separator), and a remote URL is
not a `data:image` URI. -/
def HostItem.wf : HostItem → Prop
  | .textItem _ => True
  | .imageB64 mt _ => ',' ∉ mt.toList
  | .imageUrl u => pyStartsWith u "data:image" = false

/-- Images counted against the 5-image limit (both inline and URL). -/
def HostItem.imgCount : HostItem → Nat
  | .textItem _ => 0
  | .imageB64 _ _ => 1
  | .imageUrl _ => 1

/-- The estimated decoded size contributed to the cumulative total: only
inline base64 images count, at `len(data) * 3 / 4`. -/
def HostItem.b64Size : HostItem → Rat
  | .imageB64 _ d => (d.length * 3 : Rat) / 4
  | _ => 0

def itemsImgCount (l : List HostItem) : Nat := (l.map HostItem.imgCount).sum

def itemsB64Size (l : List HostItem) : Rat := (l.map HostItem.b64Size).sum

/-- The content of a host message: a plain string or a list of parts. -/
inductive HostContent where
  | plain (s : String)
  | parts (items : List HostItem)

/-- A host chat message. -/
structure HostMsg where
  role : String
  content : HostContent

def HostContent.toJson : HostContent → Json
  | .plain s => .str s
  | .parts items => .arr (items.map HostItem.toJson)

def HostMsg.toJson (m : HostMsg) : Json :=
  .obj [("role", .str m.role), ("content", m.content.toJson)]

def HostMsg.wf (m : HostMsg) : Prop :=
  match m.content with
  | .plain _ => True
  | .parts items => ∀ i ∈ items, i.wf

def HostMsg.imgCount (m : HostMsg) : Nat :=
  match m.content with
  | .plain _ => 0
  | .parts items => itemsImgCount items

def HostMsg.b64Size (m : HostMsg) : Rat :=
  match m.content with
  | .plain _ => 0
  | .parts items => itemsB64Size items

def msgsImgCount (l : List HostMsg) : Nat := (l.map HostMsg.imgCount).sum

def msgsB64Size (l : List HostMsg) : Rat := (l.map HostMsg.b64Size).sum

/-- The image-count and size bookkeeping of the `process_items` loop,
expressed directly on the structured items. -/
def refItems (cnt : Nat) (size : Rat) : List HostItem → Except PyExc (Nat × Rat)
  | [] => .ok (cnt, size)
  | .textItem _ :: rest => refItems cnt size rest
  | .imageB64 _ d :: rest =>
    if cnt ≥ 5 then .error (.valueError maxImagesMsg)
    else
      let size2 := size + (d.length * 3 : Rat) / 4
      if size2 > imageSizeLimit then .error (.valueError sizeLimitMsg)
      else refItems (cnt + 1) size2 rest
  | .imageUrl _ :: rest =>
    if cnt ≥ 5 then .error (.valueError maxImagesMsg)
    else
      let size2 := size + 0
      if size2 > imageSizeLimit then .error (.valueError sizeLimitMsg)
      else refItems (cnt + 1) size2 rest

/-- The same bookkeeping lifted over messages. -/
def refMsgs (cnt : Nat) (size : Rat) : List HostMsg → Except PyExc (Nat × Rat)
  | [] => .ok (cnt, size)
  | m :: rest =>
    match m.content with
    | .plain _ => refMsgs cnt size rest
    | .parts items =>
      match refItems cnt size items with
      | .ok (c, s) => refMsgs c s rest
      | .error e => .error e

theorem breakAtChar_not_mem (c : Char) (l1 l2 : List Char) (h : c ∉ l1) :
    breakAtChar c (l1 ++ l2) =
      (breakAtChar c l2).map (fun p => (l1 ++ p.1, p.2)) := by
  induction l1 with
  | nil =>
    simp only [List.nil_append]
    cases breakAtChar c l2 with
    | none => rfl
    | some p => rfl
  | cons x xs ih =>
    have hx : x ≠ c := fun hxc => h (hxc ▸ List.mem_cons_self x xs)
    have hxs : c ∉ xs := fun hm => h (List.mem_cons_of_mem x hm)
    show breakAtChar c (x :: (xs ++ l2)) = _
    rw [breakAtChar, if_neg hx, ih hxs]
    cases breakAtChar c l2 with
    | none => rfl
    | some p => rfl

theorem strToList_append (a b : String) : (a ++ b).toList = a.toList ++ b.toList := rfl

/-- `process_image` on a well-formed data-URI image: an inline base64
source whose data is the base64 payload. -/
theorem process_image_b64 (mt d : String) (h : ',' ∉ mt.toList) :
    ∃ mtv, process_image (.obj [("url",
        .str ("data:image/" ++ mt ++ ";base64," ++ d))]) =
      .ok (.obj [("type", .str "image"),
        ("source", .obj [("type", .str "base64"), ("media_type", .str mtv),
          ("data", .str d)])]) := by
  have htl : ("data:image/" ++ mt ++ ";base64," ++ d).toList =
      ("data:image/".toList ++ mt.toList ++ ";base64".toList) ++ (',' :: d.toList) := by
    rw [strToList_append, strToList_append, strToList_append]
    simp [List.append_assoc]
  have hnc : ',' ∉ ("data:image/".toList ++ mt.toList ++ ";base64".toList) := by
    intro hm
    rcases List.mem_append.mp hm with hm2 | hm2
    · rcases List.mem_append.mp hm2 with hm3 | hm3
      · exact absurd hm3 (by decide)
      · exact h hm3
    · exact absurd hm2 (by decide)
  have hsw : pyStartsWith ("data:image/" ++ mt ++ ";base64," ++ d) "data:image" = true := by
    show charsStart "data:image".toList _ = true
    rw [htl]
    have : ("data:image/".toList ++ mt.toList ++ ";base64".toList) ++ (',' :: d.toList) =
        "data:image".toList ++ ('/' :: (mt.toList ++ ";base64".toList ++ (',' :: d.toList))) := by
      simp [List.append_assoc]
    rw [this]
    exact charsStart_self_append _ _
  have hsplit : pySplit1 ("data:image/" ++ mt ++ ";base64," ++ d) ',' =
      some (String.mk ("data:image/".toList ++ mt.toList ++ ";base64".toList), d) := by
    unfold pySplit1
    rw [htl, breakAtChar_not_mem _ _ _ hnc]
    simp [breakAtChar]
  have hmime : ∃ seg, pySplitIdx1
      (String.mk ("data:image/".toList ++ mt.toList ++ ";base64".toList)) ':' = some seg := by
    unfold pySplitIdx1
    have : (String.mk ("data:image/".toList ++ mt.toList ++ ";base64".toList)).toList =
        "data".toList ++ (':' :: ("image/".toList ++ mt.toList ++ ";base64".toList)) := by
      show "data:image/".toList ++ mt.toList ++ ";base64".toList = _
      simp [List.append_assoc]
    rw [this, breakAtChar_not_mem _ _ _ (by decide), breakAtChar]
    rw [if_pos rfl]
    exact ⟨_, rfl⟩
  obtain ⟨seg, hseg⟩ := hmime
  refine ⟨pySplitIdx0 seg ';', ?_⟩
  have hred : process_image (.obj [("url",
      .str ("data:image/" ++ mt ++ ";base64," ++ d))]) =
      (if pyStartsWith ("data:image/" ++ mt ++ ";base64," ++ d) "data:image" = true then
        match pySplit1 ("data:image/" ++ mt ++ ";base64," ++ d) ',' with
        | some (mime_type, base64_data) =>
          match pySplitIdx1 mime_type ':' with
          | some seg2 =>
            Except.ok (.obj [("type", .str "image"),
              ("source", .obj [("type", .str "base64"),
                ("media_type", .str (pySplitIdx0 seg2 ';')),
                ("data", .str base64_data)])])
          | none => Except.error (.typeError "list index out of range")
        | none =>
          Except.error (.valueError "not enough values to unpack (expected 2, got 1)")
      else
        Except.ok (.obj [("type", .str "image"),
          ("source", .obj [("type", .str "url"),
            ("url", .str ("data:image/" ++ mt ++ ";base64," ++ d))])])) := rfl
  rw [hred, if_pos hsw, hsplit]
  simp only [hseg]

/-- `process_image` on a non-data-URI URL: a URL source. -/
theorem process_image_url (u : String) (h : pyStartsWith u "data:image" = false) :
    process_image (.obj [("url", .str u)]) =
      .ok (.obj [("type", .str "image"),
        ("source", .obj [("type", .str "url"), ("url", .str u)])]) := by
  have hred : process_image (.obj [("url", .str u)]) =
      (if pyStartsWith u "data:image" = true then
        match pySplit1 u ',' with
        | some (mime_type, base64_data) =>
          match pySplitIdx1 mime_type ':' with
          | some seg2 =>
            Except.ok (.obj [("type", .str "image"),
              ("source", .obj [("type", .str "base64"),
                ("media_type", .str (pySplitIdx0 seg2 ';')),
                ("data", .str base64_data)])])
          | none => Except.error (.typeError "list index out of range")
        | none =>
          Except.error (.valueError "not enough values to unpack (expected 2, got 1)")
      else
        Except.ok (.obj [("type", .str "image"),
          ("source", .obj [("type", .str "url"), ("url", .str u)])])) := rfl
  rw [hred, if_neg (by rw [h]; exact Bool.false_ne_true)]

theorem process_items_text_step (s : String) (cnt : Nat) (size : Rat)
    (jrest : List Json) :
    process_items cnt size (HostItem.toJson (.textItem s) :: jrest) =
      (process_items cnt size jrest).bind
        (fun t => .ok ((Json.obj [("type", .str "text"), ("text", .str s)]) :: t.1,
          t.2.1, t.2.2)) := rfl

theorem process_items_b64_step (mt d : String) (h : ',' ∉ mt.toList)
    (cnt : Nat) (size : Rat) (jrest : List Json) :
    ∃ mtv, process_items cnt size (HostItem.toJson (.imageB64 mt d) :: jrest) =
      (if cnt ≥ 5 then .error (.valueError maxImagesMsg)
       else if size + (d.length * 3 : Rat) / 4 > imageSizeLimit then
         .error (.valueError sizeLimitMsg)
       else (process_items (cnt + 1) (size + (d.length * 3 : Rat) / 4) jrest).bind
         (fun t => .ok ((Json.obj [("type", .str "image"),
            ("source", .obj [("type", .str "base64"), ("media_type", .str mtv),
              ("data", .str d)])]) :: t.1, t.2.1, t.2.2))) := by
  obtain ⟨mtv, hpi⟩ := process_image_b64 mt d h
  refine ⟨mtv, ?_⟩
  by_cases h5 : cnt ≥ 5
  · rw [if_pos h5]
    show (if cnt ≥ 5 then
        (Except.error (PyExc.valueError maxImagesMsg) : Except PyExc (List Json × Nat × Rat))
      else _) = _
    rw [if_pos h5]
  · rw [if_neg h5]
    by_cases hsz : size + (d.length * 3 : Rat) / 4 > imageSizeLimit
    · rw [if_pos hsz]
      show (if cnt ≥ 5 then
          (Except.error (PyExc.valueError maxImagesMsg) : Except PyExc (List Json × Nat × Rat))
        else _) = _
      rw [if_neg h5]
      show (Except.bind (process_image (Json.obj [("url",
          Json.str ("data:image/" ++ mt ++ ";base64," ++ d))])) _ :
        Except PyExc (List Json × Nat × Rat)) = _
      rw [hpi]
      show (if size + (d.length * 3 : Rat) / 4 > imageSizeLimit then
          (Except.error (PyExc.valueError sizeLimitMsg) : Except PyExc (List Json × Nat × Rat))
        else _) = _
      rw [if_pos hsz]
    · rw [if_neg hsz]
      show (if cnt ≥ 5 then
          (Except.error (PyExc.valueError maxImagesMsg) : Except PyExc (List Json × Nat × Rat))
        else _) = _
      rw [if_neg h5]
      show (Except.bind (process_image (Json.obj [("url",
          Json.str ("data:image/" ++ mt ++ ";base64," ++ d))])) _ :
        Except PyExc (List Json × Nat × Rat)) = _
      rw [hpi]
      show (if size + (d.length * 3 : Rat) / 4 > imageSizeLimit then
          (Except.error (PyExc.valueError sizeLimitMsg) : Except PyExc (List Json × Nat × Rat))
        else _) = _
      rw [if_neg hsz]
      rfl

theorem process_items_url_step (u : String)
    (h : pyStartsWith u "data:image" = false) (cnt : Nat) (size : Rat)
    (jrest : List Json) :
    process_items cnt size (HostItem.toJson (.imageUrl u) :: jrest) =
      (if cnt ≥ 5 then .error (.valueError maxImagesMsg)
       else if size + 0 > imageSizeLimit then .error (.valueError sizeLimitMsg)
       else (process_items (cnt + 1) (size + 0) jrest).bind
         (fun t => .ok ((Json.obj [("type", .str "image"),
            ("source", .obj [("type", .str "url"), ("url", .str u)])]) :: t.1,
            t.2.1, t.2.2))) := by
  have hpi := process_image_url u h
  by_cases h5 : cnt ≥ 5
  · rw [if_pos h5]
    show (if cnt ≥ 5 then
        (Except.error (PyExc.valueError maxImagesMsg) : Except PyExc (List Json × Nat × Rat))
      else _) = _
    rw [if_pos h5]
  · rw [if_neg h5]
    by_cases hsz : size + 0 > imageSizeLimit
    · rw [if_pos hsz]
      show (if cnt ≥ 5 then
          (Except.error (PyExc.valueError maxImagesMsg) : Except PyExc (List Json × Nat × Rat))
        else _) = _
      rw [if_neg h5]
      show (Except.bind (process_image (Json.obj [("url", Json.str u)])) _ :
        Except PyExc (List Json × Nat × Rat)) = _
      rw [hpi]
      show (if size + 0 > imageSizeLimit then
          (Except.error (PyExc.valueError sizeLimitMsg) : Except PyExc (List Json × Nat × Rat))
        else _) = _
      rw [if_pos hsz]
    · rw [if_neg hsz]
      show (if cnt ≥ 5 then
          (Except.error (PyExc.valueError maxImagesMsg) : Except PyExc (List Json × Nat × Rat))
        else _) = _
      rw [if_neg h5]
      show (Except.bind (process_image (Json.obj [("url", Json.str u)])) _ :
        Except PyExc (List Json × Nat × Rat)) = _
      rw [hpi]
      show (if size + 0 > imageSizeLimit then
          (Except.error (PyExc.valueError sizeLimitMsg) : Except PyExc (List Json × Nat × Rat))
        else _) = _
      rw [if_neg hsz]
      rfl

theorem process_items_agree (items : List HostItem) (hwf : ∀ i ∈ items, i.wf) :
    ∀ (cnt : Nat) (size : Rat),
      (∀ c s, refItems cnt size items = .ok (c, s) →
        ∃ out, process_items cnt size (items.map HostItem.toJson) = .ok (out, c, s))
      ∧ (∀ e, refItems cnt size items = .error e →
        process_items cnt size (items.map HostItem.toJson) = .error e) := by
  induction items with
  | nil =>
    intro cnt size
    constructor
    · intro c s h
      have h2 : (cnt, size) = (c, s) := Except.ok.inj h
      have hc : cnt = c := congrArg Prod.fst h2
      have hs : size = s := congrArg Prod.snd h2
      subst hc
      subst hs
      exact ⟨[], rfl⟩
    · intro e h
      exact Except.noConfusion h
  | cons i rest ih =>
    intro cnt size
    have hwr : ∀ j ∈ rest, j.wf := fun j hj => hwf j (List.mem_cons_of_mem i hj)
    cases i with
    | textItem s0 =>
      constructor
      · intro c s h
        obtain ⟨out, hout⟩ := ((ih hwr) cnt size).1 c s h
        refine ⟨(Json.obj [("type", .str "text"), ("text", .str s0)]) :: out, ?_⟩
        rw [List.map_cons, process_items_text_step, hout]
        rfl
      · intro e h
        rw [List.map_cons, process_items_text_step, ((ih hwr) cnt size).2 e h]
        rfl
    | imageB64 mt d =>
      have hwi : ',' ∉ mt.toList := hwf _ (List.mem_cons_self _ _)
      obtain ⟨mtv, hstep⟩ := process_items_b64_step mt d hwi cnt size
        (rest.map HostItem.toJson)
      have hre : refItems cnt size (.imageB64 mt d :: rest) =
          (if cnt ≥ 5 then .error (.valueError maxImagesMsg)
           else if size + (d.length * 3 : Rat) / 4 > imageSizeLimit then
             .error (.valueError sizeLimitMsg)
           else refItems (cnt + 1) (size + (d.length * 3 : Rat) / 4) rest) := rfl
      constructor
      · intro c s h
        rw [hre] at h
        by_cases h5 : cnt ≥ 5
        · rw [if_pos h5] at h
          exact Except.noConfusion h
        · rw [if_neg h5] at h
          by_cases hsz : size + (d.length * 3 : Rat) / 4 > imageSizeLimit
          · rw [if_pos hsz] at h
            exact Except.noConfusion h
          · rw [if_neg hsz] at h
            obtain ⟨out, hout⟩ :=
              ((ih hwr) (cnt + 1) (size + (d.length * 3 : Rat) / 4)).1 c s h
            refine ⟨(Json.obj [("type", .str "image"),
              ("source", .obj [("type", .str "base64"), ("media_type", .str mtv),
                ("data", .str d)])]) :: out, ?_⟩
            rw [List.map_cons, hstep, if_neg h5, if_neg hsz, hout]
            rfl
      · intro e h
        rw [hre] at h
        by_cases h5 : cnt ≥ 5
        · rw [if_pos h5] at h
          rw [List.map_cons, hstep, if_pos h5]
          rw [← Except.error.inj h]
        · rw [if_neg h5] at h
          by_cases hsz : size + (d.length * 3 : Rat) / 4 > imageSizeLimit
          · rw [if_pos hsz] at h
            rw [List.map_cons, hstep, if_neg h5, if_pos hsz]
            rw [← Except.error.inj h]
          · rw [if_neg hsz] at h
            rw [List.map_cons, hstep, if_neg h5, if_neg hsz,
              ((ih hwr) _ _).2 e h]
            rfl
    | imageUrl u =>
      have hwi : pyStartsWith u "data:image" = false := hwf _ (List.mem_cons_self _ _)
      have hstep := process_items_url_step u hwi cnt size (rest.map HostItem.toJson)
      have hre : refItems cnt size (.imageUrl u :: rest) =
          (if cnt ≥ 5 then .error (.valueError maxImagesMsg)
           else if size + 0 > imageSizeLimit then .error (.valueError sizeLimitMsg)
           else refItems (cnt + 1) (size + 0) rest) := rfl
      constructor
      · intro c s h
        rw [hre] at h
        by_cases h5 : cnt ≥ 5
        · rw [if_pos h5] at h
          exact Except.noConfusion h
        · rw [if_neg h5] at h
          by_cases hsz : size + 0 > imageSizeLimit
          · rw [if_pos hsz] at h
            exact Except.noConfusion h
          · rw [if_neg hsz] at h
            obtain ⟨out, hout⟩ := ((ih hwr) (cnt + 1) (size + 0)).1 c s h
            refine ⟨(Json.obj [("type", .str "image"),
              ("source", .obj [("type", .str "url"), ("url", .str u)])]) :: out, ?_⟩
            rw [List.map_cons, hstep, if_neg h5, if_neg hsz, hout]
            rfl
      · intro e h
        rw [hre] at h
        by_cases h5 : cnt ≥ 5
        · rw [if_pos h5] at h
          rw [List.map_cons, hstep, if_pos h5]
          rw [← Except.error.inj h]
        · rw [if_neg h5] at h
          by_cases hsz : size + 0 > imageSizeLimit
          · rw [if_pos hsz] at h
            rw [List.map_cons, hstep, if_neg h5, if_pos hsz]
            rw [← Except.error.inj h]
          · rw [if_neg hsz] at h
            rw [List.map_cons, hstep, if_neg h5, if_neg hsz, ((ih hwr) _ _).2 e h]
            rfl

theorem process_messages_plain_step (role s : String) (cnt : Nat) (size : Rat)
    (jrest : List Json) :
    process_messages cnt size (HostMsg.toJson ⟨role, .plain s⟩ :: jrest) =
      (process_messages cnt size jrest).bind
        (fun r => .ok ((Json.obj [("role", .str role),
          ("content", .arr [.obj [("type", .str "text"), ("text", .str s)]])]) :: r)) := rfl

theorem process_messages_parts_step (role : String) (items : List HostItem)
    (cnt : Nat) (size : Rat) (jrest : List Json) :
    process_messages cnt size (HostMsg.toJson ⟨role, .parts items⟩ :: jrest) =
      (process_items cnt size (items.map HostItem.toJson)).bind
        (fun t => (process_messages t.2.1 t.2.2 jrest).bind
          (fun r => .ok ((Json.obj [("role", .str role), ("content", .arr t.1)]) :: r))) := rfl

theorem process_messages_agree (msgs : List HostMsg) (hwf : ∀ m ∈ msgs, m.wf) :
    ∀ (cnt : Nat) (size : Rat),
      (∀ c s, refMsgs cnt size msgs = .ok (c, s) →
        ∃ out, process_messages cnt size (msgs.map HostMsg.toJson) = .ok out)
      ∧ (∀ e, refMsgs cnt size msgs = .error e →
        process_messages cnt size (msgs.map HostMsg.toJson) = .error e) := by
  induction msgs with
  | nil =>
    intro cnt size
    exact ⟨fun c s _ => ⟨[], rfl⟩, fun e h => Except.noConfusion h⟩
  | cons m rest ih =>
    intro cnt size
    have hwr : ∀ m2 ∈ rest, m2.wf := fun m2 hm => hwf m2 (List.mem_cons_of_mem m hm)
    obtain ⟨role, content⟩ := m
    cases content with
    | plain s0 =>
      have hre : refMsgs cnt size (⟨role, .plain s0⟩ :: rest) =
          refMsgs cnt size rest := rfl
      constructor
      · intro c s h
        rw [hre] at h
        obtain ⟨out, hout⟩ := ((ih hwr) cnt size).1 c s h
        refine ⟨(Json.obj [("role", .str role),
          ("content", .arr [.obj [("type", .str "text"), ("text", .str s0)]])]) :: out, ?_⟩
        rw [List.map_cons, process_messages_plain_step, hout]
        rfl
      · intro e h
        rw [hre] at h
        rw [List.map_cons, process_messages_plain_step, ((ih hwr) cnt size).2 e h]
        rfl
    | parts items =>
      have hwi : ∀ i ∈ items, i.wf := hwf ⟨role, .parts items⟩ (List.mem_cons_self _ _)
      have hre : refMsgs cnt size (⟨role, .parts items⟩ :: rest) =
          (match refItems cnt size items with
           | .ok (c, s) => refMsgs c s rest
           | .error e => .error e) := rfl
      constructor
      · intro c s h
        rw [hre] at h
        cases hri : refItems cnt size items with
        | ok t =>
          obtain ⟨c1, s1⟩ := t
          rw [hri] at h
          obtain ⟨out1, hout1⟩ := (process_items_agree items hwi cnt size).1 c1 s1 hri
          obtain ⟨out, hout⟩ := ((ih hwr) c1 s1).1 c s h
          refine ⟨(Json.obj [("role", .str role), ("content", .arr out1)]) :: out, ?_⟩
          rw [List.map_cons, process_messages_parts_step, hout1]
          show (process_messages c1 s1 (rest.map HostMsg.toJson)).bind _ = _
          rw [hout]
          rfl
        | error e =>
          rw [hri] at h
          exact Except.noConfusion h
      · intro e h
        rw [hre] at h
        cases hri : refItems cnt size items with
        | ok t =>
          obtain ⟨c1, s1⟩ := t
          rw [hri] at h
          obtain ⟨out1, hout1⟩ := (process_items_agree items hwi cnt size).1 c1 s1 hri
          rw [List.map_cons, process_messages_parts_step, hout1]
          show (process_messages c1 s1 (rest.map HostMsg.toJson)).bind _ = _
          rw [((ih hwr) c1 s1).2 e h]
          rfl
        | error e2 =>
          rw [hri] at h
          have he : e2 = e := Except.error.inj h
          subst he
          rw [List.map_cons, process_messages_parts_step,
            (process_items_agree items hwi cnt size).2 e2 hri]
          rfl

theorem b64Size_nonneg (i : HostItem) : 0 ≤ i.b64Size := by
  cases i with
  | textItem s => exact le_refl 0
  | imageB64 mt d =>
    show (0 : Rat) ≤ (d.length * 3 : Rat) / 4
    positivity
  | imageUrl u => exact le_refl 0

theorem itemsB64Size_nonneg (l : List HostItem) : 0 ≤ itemsB64Size l := by
  unfold itemsB64Size
  induction l with
  | nil => simp
  | cons i rest ih =>
    rw [List.map_cons, List.sum_cons]
    have := b64Size_nonneg i
    linarith

theorem itemsImgCount_cons (i : HostItem) (rest : List HostItem) :
    itemsImgCount (i :: rest) = i.imgCount + itemsImgCount rest := by
  simp [itemsImgCount]

theorem itemsB64Size_cons (i : HostItem) (rest : List HostItem) :
    itemsB64Size (i :: rest) = i.b64Size + itemsB64Size rest := by
  simp [itemsB64Size]

theorem refItems_master (items : List HostItem) :
    ∀ (cnt : Nat) (size : Rat), cnt ≤ 5 → size ≤ imageSizeLimit →
      (∀ c s, refItems cnt size items = .ok (c, s) →
        c = cnt + itemsImgCount items ∧ s = size + itemsB64Size items
          ∧ c ≤ 5 ∧ s ≤ imageSizeLimit)
      ∧ (∀ e, refItems cnt size items = .error e →
        (e = .valueError maxImagesMsg ∧ 6 ≤ cnt + itemsImgCount items)
        ∨ (e = .valueError sizeLimitMsg
            ∧ imageSizeLimit < size + itemsB64Size items)) := by
  induction items with
  | nil =>
    intro cnt size h5 hsz
    constructor
    · intro c s h
      have h2 : (cnt, size) = (c, s) := Except.ok.inj h
      have hc : cnt = c := congrArg Prod.fst h2
      have hs : size = s := congrArg Prod.snd h2
      subst hc
      subst hs
      refine ⟨by simp [itemsImgCount], by simp [itemsB64Size], h5, hsz⟩
    · intro e h
      exact Except.noConfusion h
  | cons i rest ih =>
    intro cnt size h5 hsz
    cases i with
    | textItem s0 =>
      have hre : refItems cnt size (.textItem s0 :: rest) = refItems cnt size rest := rfl
      constructor
      · intro c s h
        rw [hre] at h
        obtain ⟨hc, hs, hcb, hsb⟩ := ((ih cnt size h5 hsz).1 c s h)
        rw [itemsImgCount_cons, itemsB64Size_cons]
        refine ⟨by simp only [HostItem.imgCount]; omega,
          by simp [HostItem.b64Size]; linarith, hcb, hsb⟩
      · intro e h
        rw [hre] at h
        rcases (ih cnt size h5 hsz).2 e h with ⟨he, hb⟩ | ⟨he, hb⟩
        · exact Or.inl ⟨he, by rw [itemsImgCount_cons]; omega⟩
        · refine Or.inr ⟨he, ?_⟩
          rw [itemsB64Size_cons]
          simp only [HostItem.b64Size]
          linarith
    | imageB64 mt d =>
      have hre : refItems cnt size (.imageB64 mt d :: rest) =
          (if cnt ≥ 5 then .error (.valueError maxImagesMsg)
           else if size + (d.length * 3 : Rat) / 4 > imageSizeLimit then
             .error (.valueError sizeLimitMsg)
           else refItems (cnt + 1) (size + (d.length * 3 : Rat) / 4) rest) := rfl
      have hwn : (0 : Rat) ≤ (d.length * 3 : Rat) / 4 := by positivity
      have htn := itemsB64Size_nonneg rest
      constructor
      · intro c s h
        rw [hre] at h
        by_cases hc5 : cnt ≥ 5
        · rw [if_pos hc5] at h
          exact Except.noConfusion h
        · rw [if_neg hc5] at h
          by_cases hs2 : size + (d.length * 3 : Rat) / 4 > imageSizeLimit
          · rw [if_pos hs2] at h
            exact Except.noConfusion h
          · rw [if_neg hs2] at h
            obtain ⟨hc, hs, hcb, hsb⟩ :=
              ((ih (cnt + 1) (size + (d.length * 3 : Rat) / 4) (by omega)
                (not_lt.mp hs2)).1 c s h)
            rw [itemsImgCount_cons, itemsB64Size_cons]
            refine ⟨by simp only [HostItem.imgCount]; omega, ?_, hcb, hsb⟩
            show s = size + (HostItem.b64Size (.imageB64 mt d) + itemsB64Size rest)
            simp only [HostItem.b64Size]
            linarith
      · intro e h
        rw [hre] at h
        by_cases hc5 : cnt ≥ 5
        · rw [if_pos hc5] at h
          have he := (Except.error.inj h).symm
          refine Or.inl ⟨he, ?_⟩
          rw [itemsImgCount_cons]
          show 6 ≤ cnt + (HostItem.imgCount (.imageB64 mt d) + itemsImgCount rest)
          simp only [HostItem.imgCount]
          omega
        · rw [if_neg hc5] at h
          by_cases hs2 : size + (d.length * 3 : Rat) / 4 > imageSizeLimit
          · rw [if_pos hs2] at h
            have he := (Except.error.inj h).symm
            refine Or.inr ⟨he, ?_⟩
            rw [itemsB64Size_cons]
            show imageSizeLimit < size + (HostItem.b64Size (.imageB64 mt d) + itemsB64Size rest)
            simp only [HostItem.b64Size]
            linarith
          · rw [if_neg hs2] at h
            rcases (ih (cnt + 1) (size + (d.length * 3 : Rat) / 4) (by omega)
              (not_lt.mp hs2)).2 e h with ⟨he, hb⟩ | ⟨he, hb⟩
            · refine Or.inl ⟨he, ?_⟩
              rw [itemsImgCount_cons]
              show 6 ≤ cnt + (HostItem.imgCount (.imageB64 mt d) + itemsImgCount rest)
              simp only [HostItem.imgCount]
              omega
            · refine Or.inr ⟨he, ?_⟩
              rw [itemsB64Size_cons]
              show imageSizeLimit < size + (HostItem.b64Size (.imageB64 mt d) + itemsB64Size rest)
              simp only [HostItem.b64Size]
              linarith
    | imageUrl u =>
      have hre : refItems cnt size (.imageUrl u :: rest) =
          (if cnt ≥ 5 then .error (.valueError maxImagesMsg)
           else if size + 0 > imageSizeLimit then .error (.valueError sizeLimitMsg)
           else refItems (cnt + 1) (size + 0) rest) := rfl
      have htn := itemsB64Size_nonneg rest
      constructor
      · intro c s h
        rw [hre] at h
        by_cases hc5 : cnt ≥ 5
        · rw [if_pos hc5] at h
          exact Except.noConfusion h
        · rw [if_neg hc5] at h
          by_cases hs2 : size + 0 > imageSizeLimit
          · rw [if_pos hs2] at h
            exact Except.noConfusion h
          · rw [if_neg hs2] at h
            obtain ⟨hc, hs, hcb, hsb⟩ :=
              ((ih (cnt + 1) (size + 0) (by omega) (not_lt.mp hs2)).1 c s h)
            rw [itemsImgCount_cons, itemsB64Size_cons]
            refine ⟨by simp only [HostItem.imgCount]; omega, ?_, hcb, hsb⟩
            show s = size + (HostItem.b64Size (.imageUrl u) + itemsB64Size rest)
            simp only [HostItem.b64Size]
            linarith
      · intro e h
        rw [hre] at h
        by_cases hc5 : cnt ≥ 5
        · rw [if_pos hc5] at h
          have he := (Except.error.inj h).symm
          refine Or.inl ⟨he, ?_⟩
          rw [itemsImgCount_cons]
          show 6 ≤ cnt + (HostItem.imgCount (.imageUrl u) + itemsImgCount rest)
          simp only [HostItem.imgCount]
          omega
        · rw [if_neg hc5] at h
          by_cases hs2 : size + 0 > imageSizeLimit
          · rw [if_pos hs2] at h
            have he := (Except.error.inj h).symm
            refine Or.inr ⟨he, ?_⟩
            rw [itemsB64Size_cons]
            show imageSizeLimit < size + (HostItem.b64Size (.imageUrl u) + itemsB64Size rest)
            simp only [HostItem.b64Size]
            linarith
          · rw [if_neg hs2] at h
            rcases (ih (cnt + 1) (size + 0) (by omega) (not_lt.mp hs2)).2 e h
              with ⟨he, hb⟩ | ⟨he, hb⟩
            · refine Or.inl ⟨he, ?_⟩
              rw [itemsImgCount_cons]
              show 6 ≤ cnt + (HostItem.imgCount (.imageUrl u) + itemsImgCount rest)
              simp only [HostItem.imgCount]
              omega
            · refine Or.inr ⟨he, ?_⟩
              rw [itemsB64Size_cons]
              show imageSizeLimit < size + (HostItem.b64Size (.imageUrl u) + itemsB64Size rest)
              simp only [HostItem.b64Size]
              linarith

theorem msgsB64Size_nonneg (l : List HostMsg) : 0 ≤ msgsB64Size l := by
  unfold msgsB64Size
  induction l with
  | nil => simp
  | cons m rest ih =>
    rw [List.map_cons, List.sum_cons]
    have hm : 0 ≤ m.b64Size := by
      unfold HostMsg.b64Size
      obtain ⟨role, content⟩ := m
      cases content with
      | plain s => exact le_refl 0
      | parts items => exact itemsB64Size_nonneg items
    linarith

theorem msgsImgCount_cons (m : HostMsg) (rest : List HostMsg) :
    msgsImgCount (m :: rest) = m.imgCount + msgsImgCount rest := by
  simp [msgsImgCount]

theorem msgsB64Size_cons (m : HostMsg) (rest : List HostMsg) :
    msgsB64Size (m :: rest) = m.b64Size + msgsB64Size rest := by
  simp [msgsB64Size]

theorem refMsgs_master (msgs : List HostMsg) :
    ∀ (cnt : Nat) (size : Rat), cnt ≤ 5 → size ≤ imageSizeLimit →
      (∀ c s, refMsgs cnt size msgs = .ok (c, s) →
        c = cnt + msgsImgCount msgs ∧ s = size + msgsB64Size msgs
          ∧ c ≤ 5 ∧ s ≤ imageSizeLimit)
      ∧ (∀ e, refMsgs cnt size msgs = .error e →
        (e = .valueError maxImagesMsg ∧ 6 ≤ cnt + msgsImgCount msgs)
        ∨ (e = .valueError sizeLimitMsg
            ∧ imageSizeLimit < size + msgsB64Size msgs)) := by
  induction msgs with
  | nil =>
    intro cnt size h5 hsz
    constructor
    · intro c s h
      have h2 : (cnt, size) = (c, s) := Except.ok.inj h
      have hc : cnt = c := congrArg Prod.fst h2
      have hs : size = s := congrArg Prod.snd h2
      subst hc
      subst hs
      exact ⟨by simp [msgsImgCount], by simp [msgsB64Size], h5, hsz⟩
    · intro e h
      exact Except.noConfusion h
  | cons m rest ih =>
    intro cnt size h5 hsz
    obtain ⟨role, content⟩ := m
    cases content with
    | plain s0 =>
      have hre : refMsgs cnt size (⟨role, .plain s0⟩ :: rest) =
          refMsgs cnt size rest := rfl
      have hmc : HostMsg.imgCount ⟨role, .plain s0⟩ = 0 := rfl
      have hms : HostMsg.b64Size ⟨role, .plain s0⟩ = 0 := rfl
      constructor
      · intro c s h
        rw [hre] at h
        obtain ⟨hc, hs, hcb, hsb⟩ := (ih cnt size h5 hsz).1 c s h
        rw [msgsImgCount_cons, msgsB64Size_cons, hmc, hms]
        exact ⟨by omega, by linarith, hcb, hsb⟩
      · intro e h
        rw [hre] at h
        rcases (ih cnt size h5 hsz).2 e h with ⟨he, hb⟩ | ⟨he, hb⟩
        · exact Or.inl ⟨he, by rw [msgsImgCount_cons, hmc]; omega⟩
        · exact Or.inr ⟨he, by rw [msgsB64Size_cons, hms]; linarith⟩
    | parts items =>
      have hre : refMsgs cnt size (⟨role, .parts items⟩ :: rest) =
          (match refItems cnt size items with
           | .ok (c, s) => refMsgs c s rest
           | .error e => .error e) := rfl
      have hmc : HostMsg.imgCount ⟨role, .parts items⟩ = itemsImgCount items := rfl
      have hms : HostMsg.b64Size ⟨role, .parts items⟩ = itemsB64Size items := rfl
      have hin := itemsB64Size_nonneg items
      have hmn := msgsB64Size_nonneg rest
      constructor
      · intro c s h
        rw [hre] at h
        cases hri : refItems cnt size items with
        | ok t =>
          obtain ⟨c1, s1⟩ := t
          rw [hri] at h
          obtain ⟨hc1, hs1, hc1b, hs1b⟩ :=
            (refItems_master items cnt size h5 hsz).1 c1 s1 hri
          obtain ⟨hc, hs, hcb, hsb⟩ := (ih c1 s1 hc1b hs1b).1 c s h
          rw [msgsImgCount_cons, msgsB64Size_cons, hmc, hms]
          refine ⟨by omega, by linarith, hcb, hsb⟩
        | error e =>
          rw [hri] at h
          exact Except.noConfusion h
      · intro e h
        rw [hre] at h
        cases hri : refItems cnt size items with
        | ok t =>
          obtain ⟨c1, s1⟩ := t
          rw [hri] at h
          obtain ⟨hc1, hs1, hc1b, hs1b⟩ :=
            (refItems_master items cnt size h5 hsz).1 c1 s1 hri
          rcases (ih c1 s1 hc1b hs1b).2 e h with ⟨he, hb⟩ | ⟨he, hb⟩
          · exact Or.inl ⟨he, by rw [msgsImgCount_cons, hmc]; omega⟩
          · exact Or.inr ⟨he, by rw [msgsB64Size_cons, hms]; linarith⟩
        | error e2 =>
          rw [hri] at h
          have he2 : e2 = e := Except.error.inj h
          subst he2
          rcases (refItems_master items cnt size h5 hsz).2 e2 hri
            with ⟨he, hb⟩ | ⟨he, hb⟩
          · refine Or.inl ⟨he, ?_⟩
            rw [msgsImgCount_cons, hmc]
            have := msgsImgCount rest
            omega
          · refine Or.inr ⟨he, ?_⟩
            rw [msgsB64Size_cons, hms]
            linarith

theorem pop_not_system (msgs : List HostMsg)
    (h : ∀ m0, msgs.head? = some m0 → m0.role ≠ "system") :
    pop_system_message (msgs.map HostMsg.toJson) =
      (none, msgs.map HostMsg.toJson) := by
  cases msgs with
  | nil => rfl
  | cons m rest =>
    have hr : m.role ≠ "system" := h m rfl
    have hcond : optIsStr (dlookup [("role", Json.str m.role),
        ("content", m.content.toJson)] "role") "system" = false := by
      simp [dlookup, optIsStr, Json.isStr, hr]
    show (if optIsStr (dlookup [("role", Json.str m.role),
          ("content", m.content.toJson)] "role") "system" = true
        then (dlookup [("role", Json.str m.role), ("content", m.content.toJson)]
            "content", List.map HostMsg.toJson rest)
        else (none, Json.obj [("role", Json.str m.role),
          ("content", m.content.toJson)] :: List.map HostMsg.toJson rest)) =
      (none, List.map HostMsg.toJson (m :: rest))
    rw [if_neg (by rw [hcond]; exact Bool.false_ne_true)]
    rfl

theorem anthropic_core_process_error (budget : Rat) (um mid : String)
    (msgs : List Json) (body : Dict) (e : PyExc)
    (hu : update_user_message um msgs = .ok msgs)
    (hpop : pop_system_message msgs = (none, msgs))
    (hpe : process_messages 0 0 msgs = .error e) :
    anthropic_pipe_core budget um mid msgs body = .error e := by
  rw [anthropic_pipe_core, hu]
  show Except.bind (Except.ok msgs) _ = _
  have hb : ∀ (f : List Json → Except PyExc (Dict × Json)),
      Except.bind (Except.ok msgs) f = f msgs := fun _ => rfl
  rw [hb]
  rw [hpop]
  show Except.bind (process_messages 0 0 msgs) _ = _
  rw [hpe]
  rfl

theorem anthropic_adapter_call_core_error (budget : Rat) (um mid : String)
    (msgs : List Json) (body : Dict) (e : PyExc)
    (h : anthropic_pipe_core budget um mid msgs body = .error e)
    (status : Nat) (text : String) (rb : Option Json) (ev : List RawEvent) :
    anthropic_adapter_call budget um mid msgs body status text rb ev =
      .text ("Error: " ++ pyExcStr e) := by
  unfold anthropic_adapter_call
  rw [h]

/-- C8: for every Anthropic request (well-formed structured messages, no
leading system message), six or more image parts make the pipe fail with
the image-count ValidationError (`ValueError`, "Maximum of 5 images per API
call exceeded") — or, when the base64 payloads alone already exceed the
limit, the size ValidationError — before any HTTP request: the adapter
returns the `"Error: ..."` string regardless of the injected network
response.  Likewise, when the cumulative estimated decoded image size
(base64 length × 3/4, inline images only) exceeds 100 MiB with at most
five images, the pipe fails with the size ValidationError. -/
theorem C8_image_limits :
    ∀ (budget : Rat) (um mid : String) (msgs : List HostMsg) (body : Dict),
      (∀ m ∈ msgs, m.wf) →
      (∀ m0, msgs.head? = some m0 → m0.role ≠ "system") →
      (6 ≤ msgsImgCount msgs →
        ∃ e, anthropic_pipe_core budget um mid (msgs.map HostMsg.toJson) body =
            .error e
          ∧ (e = .valueError maxImagesMsg ∨ e = .valueError sizeLimitMsg)
          ∧ ∀ (status : Nat) (text : String) (rb : Option Json) (ev : List RawEvent),
              anthropic_adapter_call budget um mid (msgs.map HostMsg.toJson) body
                status text rb ev = .text ("Error: " ++ pyExcStr e))
      ∧ (6 ≤ msgsImgCount msgs → msgsB64Size msgs ≤ imageSizeLimit →
          anthropic_pipe_core budget um mid (msgs.map HostMsg.toJson) body =
            .error (.valueError maxImagesMsg))
      ∧ (msgsImgCount msgs ≤ 5 → imageSizeLimit < msgsB64Size msgs →
          anthropic_pipe_core budget um mid (msgs.map HostMsg.toJson) body =
            .error (.valueError sizeLimitMsg)) := by
  intro budget um mid msgs body hwf hrole
  have hobj : ∀ m ∈ msgs.map HostMsg.toJson, ∃ fs, m = Json.obj fs := by
    intro m hm
    obtain ⟨m0, hm0, hm1⟩ := List.mem_map.mp hm
    exact ⟨_, hm1.symm⟩
  have hu := update_user_message_id um _ hobj
  have hpop := pop_not_system msgs hrole
  have hmaster := refMsgs_master msgs 0 0 (by omega) (by norm_num [imageSizeLimit])
  have herr : 6 ≤ msgsImgCount msgs → ∃ e, refMsgs 0 0 msgs = .error e := by
    intro h6
    cases hres : refMsgs 0 0 msgs with
    | ok t =>
      obtain ⟨c, s⟩ := t
      obtain ⟨hc, _, hcb, _⟩ := hmaster.1 c s hres
      exact absurd hcb (by omega)
    | error e => exact ⟨e, rfl⟩
  have hcoreerr : ∀ e, refMsgs 0 0 msgs = .error e →
      anthropic_pipe_core budget um mid (msgs.map HostMsg.toJson) body = .error e := by
    intro e he
    have hpe := (process_messages_agree msgs hwf 0 0).2 e he
    exact anthropic_core_process_error budget um mid _ body e hu hpop hpe
  refine ⟨?_, ?_, ?_⟩
  · intro h6
    obtain ⟨e, he⟩ := herr h6
    refine ⟨e, hcoreerr e he, ?_,
      fun status text rb ev => anthropic_adapter_call_core_error budget um mid
        _ body e (hcoreerr e he) status text rb ev⟩
    rcases hmaster.2 e he with ⟨he2, _⟩ | ⟨he2, _⟩
    · exact Or.inl he2
    · exact Or.inr he2
  · intro h6 hszle
    obtain ⟨e, he⟩ := herr h6
    rcases hmaster.2 e he with ⟨he2, _⟩ | ⟨he2, hb⟩
    · subst he2
      exact hcoreerr _ he
    · exfalso
      linarith
  · intro hc5 hszgt
    cases hres : refMsgs 0 0 msgs with
    | ok t =>
      obtain ⟨c, s⟩ := t
      obtain ⟨_, hs, _, hsb⟩ := hmaster.1 c s hres
      exfalso
      linarith
    | error e =>
      rcases hmaster.2 e hres with ⟨he2, hb⟩ | ⟨he2, hb⟩
      · exfalso
        omega
      · subst he2
        exact hcoreerr _ hres

/-- The six-image demo request used to witness C8. -/
def c8_demo_msgs : List HostMsg :=
  [⟨"user", .parts [.imageB64 "png" "AAAA", .imageB64 "png" "AAAA",
    .imageB64 "png" "AAAA", .imageB64 "png" "AAAA", .imageB64 "png" "AAAA",
    .imageB64 "png" "AAAA"]⟩]

/-- Witness for C8: a single user message with six inline base64 images
fails with the image-count ValidationError, and its adapter call returns
the corresponding Error string for an arbitrary injected response. -/
theorem C8_witness :
    anthropic_pipe_core 16000 "hi" "claude-3-5-haiku-20241022"
        (c8_demo_msgs.map HostMsg.toJson) [] =
      .error (.valueError maxImagesMsg)
    ∧ anthropic_adapter_call 16000 "hi" "claude-3-5-haiku-20241022"
        (c8_demo_msgs.map HostMsg.toJson) [] 200 "unused" none [] =
      .text ("Error: " ++ maxImagesMsg) := by
  have hwf : ∀ m ∈ c8_demo_msgs, m.wf := by
    intro m hm
    rw [c8_demo_msgs, List.mem_singleton] at hm
    subst hm
    intro i hi
    have hieq : i = .imageB64 "png" "AAAA" := by
      simpa using hi
    subst hieq
    show ',' ∉ "png".toList
    decide
  have hrole : ∀ m0, c8_demo_msgs.head? = some m0 → m0.role ≠ "system" := by
    intro m0 hm0
    have heq : m0 = ⟨"user", .parts [.imageB64 "png" "AAAA", .imageB64 "png" "AAAA",
        .imageB64 "png" "AAAA", .imageB64 "png" "AAAA", .imageB64 "png" "AAAA",
        .imageB64 "png" "AAAA"]⟩ := (Option.some.inj hm0).symm
    subst heq
    decide
  have hcount : 6 ≤ msgsImgCount c8_demo_msgs := by decide
  have hsz : msgsB64Size c8_demo_msgs ≤ imageSizeLimit := by
    have h4 : ("AAAA".length : Nat) = 4 := rfl
    simp only [c8_demo_msgs, msgsB64Size, HostMsg.b64Size, itemsB64Size,
      HostItem.b64Size, List.map_cons, List.map_nil, List.sum_cons,
      List.sum_nil, h4]
    norm_num [imageSizeLimit]
  have h := (C8_image_limits 16000 "hi" "claude-3-5-haiku-20241022"
    c8_demo_msgs [] hwf hrole).2.1 hcount hsz
  refine ⟨h, ?_⟩
  exact anthropic_adapter_call_core_error 16000 "hi" "claude-3-5-haiku-20241022"
    _ [] _ h 200 "unused" none []

/-! ## C2: the "Error: " string convention at the pipe boundary -/

/-- C2 counterexample: a streaming Anthropic request (body
`\x7b"stream": true\x7d`) whose vendor response has status 500 does NOT give
the host an "Error: "-prefixed string or fragment — `stream_response` is a
generator, so its `raise Exception(...)` at line 239 executes outside
`pipe`'s try/except, while the host iterates: the host receives a raised
exception (here `.raisedExc`), with no fragments yielded.  This refutes the
claim that no exception ever propagates across the pipe boundary. -/
theorem C2_counterexample :
    anthropic_adapter_call 16000 "hi" "claude-3-5-haiku-20241022" []
        [("stream", .bool true)] 500 "boom" none [] =
      .raisedExc [] ("Error: 500 - boom") := rfl

/-- C2 (amended): the uniform `"Error: ..."` string convention holds for
the non-streaming paths of all three adapters and for OpenRouter streaming
(whose generator catches its own exceptions and yields a final
"Error: ..." fragment), but NOT for Anthropic and Fireworks streaming: for
those, a non-200 vendor status raises an exception into the host while it
iterates the returned generator (the generator body runs outside `pipe`'s
try/except); for OpenRouter, payload construction (e.g. a body without
"messages") also runs outside the try and raises into the host. -/
theorem C2_error_convention_amended :
    (∀ (budget : Rat) (um mid : String) (msgs : List Json) (body : Dict)
        (p : Dict) (sf : Json) (status : Nat) (text : String) (rb : Option Json)
        (ev : List RawEvent),
      anthropic_pipe_core budget um mid msgs body = .ok (p, sf) →
      pyTruthy sf = false → status ≠ 200 →
      anthropic_adapter_call budget um mid msgs body status text rb ev =
        .text ("Error: " ++ ("Error: " ++ toString status ++ " - " ++ text)))
    ∧ (∀ (budget : Rat) (um mid : String) (msgs : List Json) (body : Dict)
        (e : PyExc) (status : Nat) (text : String) (rb : Option Json)
        (ev : List RawEvent),
      anthropic_pipe_core budget um mid msgs body = .error e →
      anthropic_adapter_call budget um mid msgs body status text rb ev =
        .text ("Error: " ++ pyExcStr e))
    ∧ (∀ (budget : Rat) (um mid : String) (msgs : List Json) (body : Dict)
        (p : Dict) (sf : Json) (status : Nat) (text : String) (rb : Option Json)
        (ev : List RawEvent),
      anthropic_pipe_core budget um mid msgs body = .ok (p, sf) →
      pyTruthy sf = true → status ≠ 200 →
      anthropic_adapter_call budget um mid msgs body status text rb ev =
        .raisedExc [] ("Error: " ++ toString status ++ " - " ++ text))
    ∧ (∀ (mid : String) (msgs : List Json) (body : Dict) (p : Dict) (sf : Json)
        (status : Nat) (text : String) (rb : Option Json) (lines : List RawLine),
      fireworks_pipe_core mid msgs body = .ok (p, sf) →
      pyTruthy sf = false → status ≠ 200 →
      fireworks_adapter_call mid msgs body status text rb lines =
        .text ("Error: " ++ ("HTTP Error " ++ toString status ++ ": " ++ text)))
    ∧ (∀ (mid : String) (msgs : List Json) (body : Dict) (p : Dict) (sf : Json)
        (status : Nat) (text : String) (rb : Option Json) (lines : List RawLine),
      fireworks_pipe_core mid msgs body = .ok (p, sf) →
      pyTruthy sf = true → status ≠ 200 →
      fireworks_adapter_call mid msgs body status text rb lines =
        .raisedExc [] ("HTTP Error " ++ toString status ++ ": " ++ text))
    ∧ (∀ (body : Dict) (p : Dict) (sf : Json) (status : Nat) (text : String)
        (rb : Option Json) (lines : List RawLine),
      openrouter_pipe_core body = .ok (p, sf) →
      pyTruthy sf = true → status ≠ 200 →
      openrouter_adapter_call body (.resp status text rb) lines =
        .streamed [.str ("Error: HTTP Error " ++ toString status ++ ": " ++ text)])
    ∧ (∀ (body : Dict) (p : Dict) (sf : Json) (status : Nat) (text : String)
        (rb : Option Json) (lines : List RawLine),
      openrouter_pipe_core body = .ok (p, sf) →
      pyTruthy sf = false → status ≠ 200 →
      openrouter_adapter_call body (.resp status text rb) lines =
        .text ("Error: " ++ ("HTTP Error " ++ toString status ++ ": " ++ text)))
    ∧ (∀ (body : Dict) (e : PyExc) (net : HttpResult) (lines : List RawLine),
      openrouter_pipe_core body = .error e →
      openrouter_adapter_call body net lines = .raisedExc [] (pyExcStr e)) := by
  refine ⟨?_, ?_, ?_, ?_, ?_, ?_, ?_, ?_⟩
  · intro budget um mid msgs body p sf status text rb ev hcore hflag hst
    unfold anthropic_adapter_call
    rw [hcore]
    show (if pyTruthy sf = true then _ else _) = _
    rw [if_neg (by rw [hflag]; exact Bool.false_ne_true)]
    have hg : anthropic_get_completion status text rb =
        .error (.exception ("Error: " ++ toString status ++ " - " ++ text)) := by
      unfold anthropic_get_completion
      rw [if_neg hst]
    rw [hg]
    rfl
  · intro budget um mid msgs body e status text rb ev hcore
    unfold anthropic_adapter_call
    rw [hcore]
  · intro budget um mid msgs body p sf status text rb ev hcore hflag hst
    unfold anthropic_adapter_call
    rw [hcore]
    show (if pyTruthy sf = true then _ else _) = _
    rw [if_pos hflag]
    have hsr : anthropic_stream_response status text ev =
        .raised [] ("Error: " ++ toString status ++ " - " ++ text) := by
      unfold anthropic_stream_response
      rw [if_neg hst]
    rw [hsr]
  · intro mid msgs body p sf status text rb lines hcore hflag hst
    unfold fireworks_adapter_call
    rw [hcore]
    show (if pyTruthy sf = true then _ else _) = _
    rw [if_neg (by rw [hflag]; exact Bool.false_ne_true)]
    have hg : fireworks_get_completion status text rb =
        .error (.exception ("HTTP Error " ++ toString status ++ ": " ++ text)) := by
      unfold fireworks_get_completion
      rw [if_neg hst]
    rw [hg]
    rfl
  · intro mid msgs body p sf status text rb lines hcore hflag hst
    unfold fireworks_adapter_call
    rw [hcore]
    show (if pyTruthy sf = true then _ else _) = _
    rw [if_pos hflag]
    have hsr : fireworks_stream_response status text lines =
        .raised [] ("HTTP Error " ++ toString status ++ ": " ++ text) := by
      unfold fireworks_stream_response
      rw [if_neg hst]
    rw [hsr]
  · intro body p sf status text rb lines hcore hflag hst
    unfold openrouter_adapter_call
    rw [hcore]
    show (if pyTruthy sf = true then _ else _) = _
    rw [if_pos hflag]
    have hsr : openrouter_stream_response (.resp status text rb) lines =
        [.str ("Error: HTTP Error " ++ toString status ++ ": " ++ text)] := by
      unfold openrouter_stream_response
      show (if status = 200 then _ else _) = _
      rw [if_neg hst]
    rw [hsr]
  · intro body p sf status text rb lines hcore hflag hst
    unfold openrouter_adapter_call
    rw [hcore]
    show (if pyTruthy sf = true then _ else _) = _
    rw [if_neg (by rw [hflag]; exact Bool.false_ne_true)]
    have hg : openrouter_non_stream_response status text rb =
        .error (.exception ("HTTP Error " ++ toString status ++ ": " ++ text)) := by
      unfold openrouter_non_stream_response
      rw [if_neg hst]
    simp only [hg]
    rfl
  · intro body e net lines hcore
    unfold openrouter_adapter_call
    rw [hcore]

/-- Witness for C2 (amended): concrete non-streaming Anthropic, streaming
Fireworks and streaming OpenRouter requests against a 500 response. -/
theorem C2_witness :
    anthropic_adapter_call 16000 "hi" "claude-3-5-haiku-20241022" [] [] 500
        "boom" none [] =
      .text ("Error: " ++ ("Error: " ++ toString 500 ++ " - " ++ "boom"))
    ∧ fireworks_adapter_call "deepseek-v3" [] [("stream", .bool true)] 500
        "boom" none [] =
      .raisedExc [] ("HTTP Error " ++ toString 500 ++ ": " ++ "boom")
    ∧ openrouter_adapter_call [("messages", .arr []), ("model", .str "m"),
        ("stream", .bool true)] (.resp 500 "boom" none) [] =
      .streamed [.str ("Error: HTTP Error " ++ toString 500 ++ ": " ++ "boom")] :=
  ⟨C2_error_convention_amended.1 16000 "hi" "claude-3-5-haiku-20241022" [] []
      _ _ 500 "boom" none [] rfl rfl (by decide),
   C2_error_convention_amended.2.2.2.2.1 "deepseek-v3" []
      [("stream", .bool true)] _ _ 500 "boom" none [] rfl rfl (by decide),
   C2_error_convention_amended.2.2.2.2.2.1 [("messages", .arr []),
      ("model", .str "m"), ("stream", .bool true)] _ _ 500 "boom" none [] rfl
      rfl (by decide)⟩
